import Mathlib

/-!
Verification of the backer-resolution library (bevry/github-api) against its
natural-language specification.

The development shallowly embeds the TypeScript sources of
src/source/index.ts (the current edition of the file, lines 2362-4701; the
file also carries two older editions of the same module) into Lean:

* pure helpers (credential validation, secret redaction, slug extraction,
  pagination arithmetic, the financial adapters' filters) become Lean
  functions translated statement by statement;
* the stateful backer-resolution pipeline (getBackers) becomes a small
  state-plus-exceptions monad over an explicit profile registry, with every
  remote endpoint abstracted as a field of an Environment record and every
  issued request counted;
* the Fellow profile registry lives in the external npm package fellow and
  is not part of src/, so it is modelled from the specification (sections 3
  and 4.3 of spec.md); every such definition carries a doc comment starting
  with: Modelled from the spec.

JavaScript strings are modelled as Lean String, JavaScript numbers that the
code treats as integral counters (cents, dollars, page numbers) as Nat, and
timestamps as Int.  JavaScript truthiness on strings is the test against
the empty string, on numbers the test against zero, and on optional values
the test against none; each site spells the corresponding test out.
-/

-- ====================================================================
-- JavaScript-style string helpers shared by several embedded functions
-- ====================================================================

/-- JavaScript logical-or on strings: the left operand unless it is falsy
(the empty string). -/
def jsOr (a b : String) : String :=
  if a ≠ "" then a else b

/-- JavaScript truthiness of an optional numeric option value:
absent and zero are falsy.  Used for the cents-threshold options. -/
def optNatTruthy (t : Option Nat) : Bool :=
  match t with
  | none => false
  | some n => n ≠ 0

/-- Whitespace trim on a character list (the string functions of the Lean
core operate on byte positions, which do not reduce structurally; the
embedding keeps all character work on lists). -/
def listTrim (cs : List Char) : List Char :=
  ((cs.dropWhile Char.isWhitespace).reverse.dropWhile Char.isWhitespace).reverse

/-- Split a character list on a separator character. -/
def splitOnChar (sep : Char) : List Char → List (List Char)
  | [] => [[]]
  | c :: t =>
    let r := splitOnChar sep t
    if c = sep then [] :: r
    else (c :: r.headD []) :: r.tail

/-- Whether the pattern occurs as a contiguous sublist. -/
def containsSub (pat : List Char) : List Char → Bool
  | [] => pat.isEmpty
  | c :: t => pat.isPrefixOf (c :: t) || containsSub pat t

-- ====================================================================
-- Credentials (src/source/index.ts lines 3263-3357, claim C8)
-- ====================================================================

/-- GitHub credentials record (interface GitHubCredentials).  Absent fields
are modelled as the empty string, matching the JavaScript truthiness checks
the code performs on them. -/
structure GitHubCredentials where
  GITHUB_ACCESS_TOKEN : String
  GITHUB_TOKEN : String
  GITHUB_CLIENT_ID : String
  GITHUB_CLIENT_SECRET : String
  GITHUB_API_URL : String
  GITHUB_API : String
deriving Repr, DecidableEq

/-- The all-empty credentials record. -/
def GitHubCredentials.blank : GitHubCredentials :=
  { GITHUB_ACCESS_TOKEN := "", GITHUB_TOKEN := "", GITHUB_CLIENT_ID := ""
    GITHUB_CLIENT_SECRET := "", GITHUB_API_URL := "", GITHUB_API := "" }

/-- getAccessToken (line 3342): the access token, else the plain token,
else null; null is modelled as the empty string. -/
def getAccessToken (credentials : GitHubCredentials) : String :=
  jsOr credentials.GITHUB_ACCESS_TOKEN credentials.GITHUB_TOKEN

/-- hasCredentials (line 3349): an access token, or both a client id and a
client secret. -/
def hasCredentials (credentials : GitHubCredentials) : Bool :=
  getAccessToken credentials ≠ "" ||
    (credentials.GITHUB_CLIENT_ID ≠ "" && credentials.GITHUB_CLIENT_SECRET ≠ "")

/-- validateCredentials (line 3363): succeeds when hasCredentials holds and
otherwise fails with the INVALID_GITHUB_AUTH error code. -/
def validateCredentials (credentials : GitHubCredentials) : Except String Unit :=
  if hasCredentials credentials then Except.ok ()
  else Except.error "INVALID_GITHUB_AUTH"

/-- getAuthHeader (line 3471): a token header, else a basic header, guarded
by validateCredentials. -/
def getAuthHeader (credentials : GitHubCredentials) : Except String String := do
  let _ ← validateCredentials credentials
  let accessToken := getAccessToken credentials
  if accessToken ≠ "" then
    Except.ok ("token " ++ accessToken)
  else if credentials.GITHUB_CLIENT_ID ≠ "" && credentials.GITHUB_CLIENT_SECRET ≠ "" then
    Except.ok ("Basic " ++ credentials.GITHUB_CLIENT_ID ++ ":" ++ credentials.GITHUB_CLIENT_SECRET)
  else
    Except.error "INVALID_STATE"

/-- getSearchParams (line 3382): the authorization search parameters as
key-value pairs appended to the supplied parameter list, guarded by
validateCredentials. -/
def getSearchParams (credentials : GitHubCredentials)
    (params : List (String × String)) : Except String (List (String × String)) := do
  let _ ← validateCredentials credentials
  let accessToken := getAccessToken credentials
  if accessToken ≠ "" then
    Except.ok (params ++ [("access_token", accessToken)])
  else if credentials.GITHUB_CLIENT_ID ≠ "" && credentials.GITHUB_CLIENT_SECRET ≠ "" then
    Except.ok (params ++ [("client_id", credentials.GITHUB_CLIENT_ID),
      ("client_secret", credentials.GITHUB_CLIENT_SECRET)])
  else
    Except.error "INVALID_STATE"

-- ====================================================================
-- ThanksDev adapter data and filters
-- (src/source/index.ts lines 2777-2852, claim C6)
-- ====================================================================

/-- One ThanksDev donor tuple: platform code, username, cents (can be
zero). -/
structure ThanksDevDonor where
  platform : String
  username : String
  cents : Nat
deriving Repr, DecidableEq

/-- A ThanksDev API response (interface ThanksDevResponse). -/
structure ThanksDevResponse where
  donors : List ThanksDevDonor
  dependers : List ThanksDevDonor
deriving Repr, DecidableEq

/-- The monthly-window filter of getBackersFromThanksDev (line 2820):
cents truthy, and at or above the sponsor threshold when that option is
truthy. -/
def thanksdevSponsorFilter (sponsorCentsThreshold : Option Nat)
    (donors : List ThanksDevDonor) : List ThanksDevDonor :=
  donors.filter fun d =>
    d.cents ≠ 0 &&
      (!optNatTruthy sponsorCentsThreshold || d.cents ≥ sponsorCentsThreshold.getD 0)

/-- The all-time filter of getBackersFromThanksDev (line 2836): cents
truthy, and at or above the donor threshold when that option is truthy. -/
def thanksdevDonorFilter (donorCentsThreshold : Option Nat)
    (donors : List ThanksDevDonor) : List ThanksDevDonor :=
  donors.filter fun d =>
    d.cents ≠ 0 &&
      (!optNatTruthy donorCentsThreshold || d.cents ≥ donorCentsThreshold.getD 0)

-- ====================================================================
-- Package data (src/source/index.ts lines 2616-2660)
-- ====================================================================

/-- Package.json person record (interface PackagePerson). -/
structure PackagePerson where
  name : Option String
  email : Option String
  username : Option String
  web : Option String
deriving Repr, DecidableEq

/-- A manifest person entry: either a person string or a structured person
record (the fields are typed string or PackagePerson in the source). -/
inductive PersonEntry where
  | str (s : String)
  | person (p : PackagePerson)
deriving Repr, DecidableEq

/-- The repository field of package data: a string, an object with an
optional url, or absent. -/
inductive RepoField where
  | absent
  | str (s : String)
  | obj (url : Option String)
deriving Repr, DecidableEq

/-- Badge configuration subobject of package data. -/
structure BadgesConfig where
  githubSponsorsUsername : String
  thanksdevGithubUsername : String
  opencollectiveUsername : String
deriving Repr, DecidableEq

/-- Package.json fields used by the library (interface PackageData).
Person-valued fields are lists of person entries; the authors field of the
source also admits a single entry, which is modelled as a one-element
list. -/
structure PackageData where
  title : Option String
  name : Option String
  homepage : Option String
  repository : RepoField
  author : Option PersonEntry
  authors : List PersonEntry
  maintainers : List PersonEntry
  contributors : List PersonEntry
  funders : List PersonEntry
  sponsors : List PersonEntry
  donors : List PersonEntry
  badges : BadgesConfig
deriving Repr, DecidableEq

/-- The all-empty package data, the fallback object the pipeline uses. -/
def PackageData.blank : PackageData :=
  { title := none, name := none, homepage := none, repository := RepoField.absent
    author := none, authors := [], maintainers := [], contributors := []
    funders := [], sponsors := [], donors := []
    badges := { githubSponsorsUsername := "", thanksdevGithubUsername := ""
                opencollectiveUsername := "" } }

-- ====================================================================
-- GitHub slug extraction (src/source/index.ts lines 2686-2731, claim C7)
-- ====================================================================

/-- Whether the keyword github.com followed by a colon or slash starts this
character list (one match site of the regular expression
caret dot-star github.com colon-or-slash of line 2690). -/
def startsGitHubSep (cs : List Char) : Bool :=
  "github.com:".toList.isPrefixOf cs || "github.com/".toList.isPrefixOf cs

/-- The remainder after the rightmost occurrence of github.com followed by
a colon or slash, if any: the greedy dot-star of the anchored regular
expression consumes up to the last such occurrence. -/
def afterLastGitHubSep : List Char → Option (List Char)
  | [] => none
  | c :: t =>
    match afterLastGitHubSep t with
    | some r => some r
    | none =>
      if startsGitHubSep (c :: t) then some ((c :: t).drop "github.com:".length)
      else none

/-- getGitHubSlugFromUrl (line 2686): trim, drop one trailing .git, then
remove everything through the last github.com separator. -/
def getGitHubSlugFromUrl (url : String) : String :=
  let t := listTrim url.toList
  let t := if "tig.".toList.isPrefixOf t.reverse then (t.reverse.drop 4).reverse else t
  match afterLastGitHubSep t with
  | some r => String.mk r
  | none => String.mk t

/-- Character admissible inside a slug segment: the character class
excluding colon and slash. -/
def slugSegChar (c : Char) : Bool :=
  c ≠ ':' && c ≠ '/'

/-- The capture of the anchored slug regular expression of line 2714
applied to its input with the optional prefix already removed:
one colon-and-slash-free segment, a slash, a lazy second segment, an
optional .git suffix, end of input.  The lazy second segment prefers the
variant that leaves a .git suffix to the optional group. -/
def matchSlugCore (cs : List Char) : Option (List Char) :=
  let a := cs.takeWhile slugSegChar
  if a.isEmpty then none
  else
    match cs.drop a.length with
    | '/' :: after =>
      let stripped := (after.reverse.drop 4).reverse
      if "tig.".toList.isPrefixOf after.reverse && !stripped.isEmpty &&
          stripped.all slugSegChar then
        some (a ++ '/' :: stripped)
      else if !after.isEmpty && after.all slugSegChar then
        some (a ++ '/' :: after)
      else none
    | _ => none

/-- The optional prefix alternatives of the regular expression of
line 2714. -/
def slugUrlPrefixes : List String :=
  ["https://github.com/", "http://github.com/", "git@github.com:", "github:"]

/-- The full regular expression of line 2714: try each prefix alternative,
fall back to the empty prefix when the prefixed attempt fails. -/
def matchSlugRegex (url : String) : Option (List Char) :=
  let cs := url.toList
  match slugUrlPrefixes.find? (fun p => p.toList.isPrefixOf cs) with
  | some p => (matchSlugCore (cs.drop p.toList.length)).orElse fun _ => matchSlugCore cs
  | none => matchSlugCore cs

/-- getGitHubSlugFromPackageData (line 2693): choose the url from the
repository string, the repository object url, or the homepage; match the
slug regular expression; reject captures that do not split into exactly two
nonempty slash segments; fail with the configuration error code
otherwise. -/
def getGitHubSlugFromPackageData (pkg : PackageData) : Except String String :=
  let url : Option String :=
    match pkg.repository with
    | RepoField.str s => some s
    | RepoField.obj (some u) => some u
    | RepoField.obj none => pkg.homepage
    | RepoField.absent => pkg.homepage
  let slug : Option (List Char) :=
    match url with
    | some u =>
      if u ≠ "" then
        match matchSlugRegex u with
        | some s =>
          if ((splitOnChar '/' s).filter (fun part => !part.isEmpty)).length ≠ 2 then none
          else some s
        | none => none
      else none
    | none => none
  match slug with
  | some s => Except.ok (String.mk s)
  | none => Except.error "PACKAGE_DATA_NOT_CONFIGURED_FOR_GITHUB_REPOSITORY"

-- ====================================================================
-- Paginated REST query engine
-- (src/source/index.ts lines 3587-3685, claims C5 and C10)
-- ====================================================================

/-- The pagination-relevant slice of QueryOptions (lines 2545-2590):
page, pages and size are optional numbers, and the promise pool is either
installed on the object or not. -/
structure QueryPagingOptions where
  page : Option Nat
  pages : Option Nat
  size : Option Nat
  poolInstalled : Bool
deriving Repr, DecidableEq

/-- The defaults-filling prelude of queryREST (lines 3589-3596): a promise
pool is installed when absent, and when any of page, pages or size is set
the missing two are filled in with the defaults page 1, pages 0 and
size 100.  The source performs these assignments on the options object the
caller passed in, so the caller observes them; the function returns the
options object as mutated. -/
def queryRESTFillOptions (opts : QueryPagingOptions) : QueryPagingOptions :=
  let opts := { opts with poolInstalled := true }
  if opts.page ≠ none || opts.pages ≠ none || opts.size ≠ none then
    { opts with
      page := some (opts.page.getD 1)
      pages := some (opts.pages.getD 0)
      size := some (opts.size.getD 100) }
  else opts

/-- The GraphQL page-size filter of getBackersFromGitHubSponsors
(line 4016): the size option when truthy, else 100, read without writing a
default back into the shared options object. -/
def githubSponsorsFirstFilter (opts : QueryPagingOptions) : Nat :=
  match opts.size with
  | some n => if n ≠ 0 then n else 100
  | none => 100

/-- One page of the remote collection: the item window the endpoint
returns for a one-based page number and a page size. -/
def restPage (items : List α) (page size : Nat) : List α :=
  (items.drop ((page - 1) * size)).take size

/-- The pagination tail of queryREST (lines 3656-3681) against an
array-shaped source, returning the concatenated items together with the
number of page requests issued.  An empty page answers the empty list; a
page is followed by another request exactly when it is full (its length
equals the size) and the page-count cap (pages, zero meaning no cap) has
not been reached, and the recursion passes page plus one; the recursive
result is appended after the current page. -/
def queryRESTPaged (items : List α) (page pages size : Nat) : List α × Nat :=
  if h : (restPage items page size).length = 0 then ([], 1)
  else
    if hn : (restPage items page size).length = size ∧ (pages = 0 || page < pages) = true then
      let rest := queryRESTPaged items (page + 1) pages size
      (restPage items page size ++ rest.1, rest.2 + 1)
    else (restPage items page size, 1)
termination_by items.length + 2 - page
decreasing_by
  rcases hn with ⟨hlen, _⟩
  have hsz : 0 < size := by omega
  have hle : (restPage items page size).length ≤ items.length - (page - 1) * size := by
    simp only [restPage, List.length_take, List.length_drop]
    omega
  rw [hlen] at hle
  have h1 : page - 1 ≤ (page - 1) * size := Nat.le_mul_of_pos_right _ hsz
  omega

-- ====================================================================
-- Secret redaction (src/source/index.ts lines 3433-3453, claim C9)
-- ====================================================================

/-- A word character of the regular-expression class backslash-w:
an ASCII letter, digit, or underscore. -/
def isWordChar (c : Char) : Bool :=
  (c ≥ 'a' && c ≤ 'z') || (c ≥ 'A' && c ≤ 'Z') || (c ≥ '0' && c ≤ '9') || c = '_'

/-- Case-insensitive character comparison restricted to ASCII, as the
ignore-case flag of the regular expression performs on its literals. -/
def charLower (c : Char) : Char :=
  if c ≥ 'A' && c ≤ 'Z' then Char.ofNat (c.toNat + 32) else c

/-- The credential parameter names of the redaction regular expression of
line 3435. -/
def redactKeywords : List (List Char) :=
  ["access_token".toList, "client_id".toList, "client_secret".toList]

/-- Case-insensitive keyword test: the keyword is a prefix of the text,
compared after ASCII lowering. -/
def keywordPrefix (kw text : List Char) : Bool :=
  kw.isPrefixOf (text.map charLower)

/-- One match attempt of the redaction regular expression at the head of
the text: an optional ampersand, one of the three parameter names matched
case-insensitively, an equals sign, and a maximal nonempty run of word
characters.  Returns the replacement text (the ampersand and the name kept
verbatim, the value replaced by the literal REDACTED) together with the
remainder of the input after the match, or none when the pattern does not
match here.  The optional ampersand backtracks to the empty alternative
only vacuously, because no parameter name starts with an ampersand. -/
def redactAttempt (body : List Char) : Option (List Char × List Char) :=
  match redactKeywords.find? (fun kw => keywordPrefix kw body) with
  | none => none
  | some kw =>
    match body.drop kw.length with
    | c :: rest2 =>
      if c = '=' then
        if (rest2.takeWhile isWordChar).isEmpty then none
        else some (body.take kw.length ++ '=' :: "REDACTED".toList,
          rest2.dropWhile isWordChar)
      else none
    | [] => none

/-- The full match attempt including the optional leading ampersand. -/
def redactMatchAt (text : List Char) : Option (List Char × List Char) :=
  match text with
  | [] => none
  | c :: body =>
    if c = '&' then
      match redactAttempt body with
      | some (repl, rest) => some ('&' :: repl, rest)
      | none => redactAttempt (c :: body)
    else redactAttempt (c :: body)

theorem redactAttempt_shrink {body repl rest : List Char}
    (h : redactAttempt body = some (repl, rest)) : rest.length < body.length := by
  unfold redactAttempt at h
  rcases hf : redactKeywords.find? (fun kw => keywordPrefix kw body) with _ | kw
  · rw [hf] at h; simp at h
  · rw [hf] at h
    dsimp only at h
    rcases hd : body.drop kw.length with _ | ⟨c, rest2⟩
    · rw [hd] at h; simp at h
    · rw [hd] at h
      dsimp only at h
      by_cases hc : c = '='
      · rw [if_pos hc] at h
        by_cases hr : (rest2.takeWhile isWordChar).isEmpty
        · rw [if_pos hr] at h; simp at h
        · rw [if_neg hr] at h
          simp only [Option.some.injEq, Prod.mk.injEq] at h
          have hlen : (body.drop kw.length).length = body.length - kw.length :=
            List.length_drop _ _
          rw [hd] at hlen
          have hsplit : (rest2.takeWhile isWordChar).length +
              (rest2.dropWhile isWordChar).length = rest2.length := by
            rw [← List.length_append, List.takeWhile_append_dropWhile]
          have hpos : 0 < (rest2.takeWhile isWordChar).length := by
            rcases hw : rest2.takeWhile isWordChar with _ | _
            · rw [hw] at hr; simp at hr
            · simp [hw]
          rw [← h.2]
          simp only [List.length_cons] at hlen
          omega
      · rw [if_neg hc] at h; simp at h

theorem redactMatchAt_shrink {text repl rest : List Char}
    (h : redactMatchAt text = some (repl, rest)) : rest.length < text.length := by
  unfold redactMatchAt at h
  rcases text with _ | ⟨c, body⟩
  · simp at h
  · dsimp only at h
    by_cases hc : c = '&'
    · rw [if_pos hc] at h
      rcases ha : redactAttempt body with _ | ⟨repl2, rest2⟩
      · rw [ha] at h
        exact redactAttempt_shrink h
      · rw [ha] at h
        simp only [Option.some.injEq, Prod.mk.injEq] at h
        have := redactAttempt_shrink ha
        rw [← h.2]
        simp only [List.length_cons]
        omega
    · rw [if_neg hc] at h
      exact redactAttempt_shrink h

/-- The global replacement loop of the regular expression of line 3435:
scan left to right, replacing each nonoverlapping leftmost match and
continuing after it. -/
def redactScan : List Char → List Char
  | [] => []
  | c :: t =>
    match h : redactMatchAt (c :: t) with
    | some (repl, rest) => repl ++ redactScan rest
    | none => c :: redactScan t
termination_by text => text.length
decreasing_by
  · exact redactMatchAt_shrink h
  · simp

/-- redactSearchParams (line 3433): replace every credential-parameter
value with the literal REDACTED, keeping the ampersand and the parameter
name. -/
def redactSearchParams (value : String) : String :=
  String.mk (redactScan value.toList)

/-- JavaScript replaceAll with a plain-string pattern: replace
nonoverlapping occurrences left to right.  The pattern is assumed
nonempty, which the call sites guarantee by a truthiness guard. -/
def replaceAllStr (pat repl : List Char) : List Char → List Char
  | [] => []
  | c :: t =>
    if pat.isPrefixOf (c :: t) && !pat.isEmpty then
      repl ++ replaceAllStr pat repl ((c :: t).drop pat.length)
    else
      c :: replaceAllStr pat repl t
termination_by text => text.length
decreasing_by
  · rename_i hp
    rcases pat with _ | ⟨p, ps⟩
    · simp at hp
    · simp only [List.length_drop, List.length_cons]
      omega
  · simp

/-- redactCredentials (line 3441): redactSearchParams, then literal
replacement of each truthy credential value by REDACTED, in the order
access token, client id, client secret. -/
def redactCredentials (value : String) (credentials : GitHubCredentials) : String :=
  let value := redactSearchParams value
  let value :=
    if getAccessToken credentials ≠ "" then
      String.mk (replaceAllStr (getAccessToken credentials).toList "REDACTED".toList value.toList)
    else value
  let value :=
    if credentials.GITHUB_CLIENT_ID ≠ "" then
      String.mk (replaceAllStr credentials.GITHUB_CLIENT_ID.toList "REDACTED".toList value.toList)
    else value
  let value :=
    if credentials.GITHUB_CLIENT_SECRET ≠ "" then
      String.mk (replaceAllStr credentials.GITHUB_CLIENT_SECRET.toList "REDACTED".toList value.toList)
    else value
  value

-- ====================================================================
-- Profile Identity Registry
-- The Fellow class comes from the external npm package fellow, which is
-- not part of src/; the registry is therefore modelled from the
-- specification (spec.md sections 1, 3 and 4.3), and every definition of
-- this section says so in its doc comment.
-- ====================================================================

/-- Normalise a JavaScript optional string: null, undefined and the empty
string all behave as absent under the truthiness tests the code uses. -/
def optStr (s : Option String) : Option String :=
  match s with
  | some s => if s = "" then none else some s
  | none => none

/-- ASCII lowercase of a string, for the case-insensitive comparisons of
the matching rule. -/
def strLower (s : String) : String :=
  String.mk (s.toList.map charLower)

/-- Normalised name: trimmed and lowercased. -/
def normName (s : String) : String :=
  String.mk ((listTrim s.toList).map charLower)

/-- Set-style insertion on a list used as a set with insertion order. -/
def setInsert (s : List String) (x : String) : List String :=
  if x ∈ s then s else s ++ [x]

/-- Set-style union on lists used as sets with insertion order. -/
def setUnion (a b : List String) : List String :=
  b.foldl setInsert a

/-- Modelled from the spec: an identity fragment (section 3) - a partial
set of attributes describing a person, arriving from one source call.  The
field names are the ones the source passes to Fellow.ensure at its call
sites. -/
structure Fragment where
  name : Option String
  email : Option String
  githubUsername : Option String
  githubUrl : Option String
  websiteUrl : Option String
  thanksdevUrl : Option String
  opencollectiveUrl : Option String
  twitterUrl : Option String
  homepage : Option String
  description : Option String
  company : Option String
  location : Option String
  hireable : Option Bool
  githubProfile : Bool
deriving Repr, DecidableEq

/-- The all-absent fragment. -/
def Fragment.blank : Fragment :=
  { name := none, email := none, githubUsername := none, githubUrl := none
    websiteUrl := none, thanksdevUrl := none, opencollectiveUrl := none
    twitterUrl := none, homepage := none, description := none, company := none
    location := none, hireable := none, githubProfile := false }

/-- The truthy URLs of a fragment, pooled across the URL-valued fields
(the spec treats a shared URL of any kind as an identity marker,
sections 1 and 3). -/
def Fragment.urls (f : Fragment) : List String :=
  [f.githubUrl, f.websiteUrl, f.thanksdevUrl, f.opencollectiveUrl,
    f.twitterUrl, f.homepage].filterMap optStr

/-- The truthy emails of a fragment as a zero-or-one-element list. -/
def Fragment.emails (f : Fragment) : List String :=
  (optStr f.email).toList

/-- The truthy usernames of a fragment as a zero-or-one-element list. -/
def Fragment.usernames (f : Fragment) : List String :=
  (optStr f.githubUsername).toList

/-- Modelled from the spec: a Fellow entity (section 3) - the deduplicated
record for one real-world backer.  Identity markers are set-valued
(the spec: one or more hosting-platform usernames and URLs), the
relationship sets are per-role repository-slug sets, and the contribution
counts are a per-repository map. -/
structure Fellow where
  name : Option String
  emails : List String
  githubUsernames : List String
  urls : List String
  description : Option String
  company : Option String
  location : Option String
  hireable : Option Bool
  githubProfile : Bool
  authorOf : List String
  maintainerOf : List String
  contributorOf : List String
  funderOf : List String
  sponsorOf : List String
  donorOf : List String
  contributionsOf : List (String × Nat)
deriving Repr, DecidableEq

/-- The entity with nothing recorded. -/
def Fellow.blank : Fellow :=
  { name := none, emails := [], githubUsernames := [], urls := []
    description := none, company := none, location := none, hireable := none
    githubProfile := false, authorOf := [], maintainerOf := []
    contributorOf := [], funderOf := [], sponsorOf := [], donorOf := []
    contributionsOf := [] }

/-- Case-insensitive membership among recorded identity strings. -/
def memberCI (x : String) (xs : List String) : Bool :=
  xs.any fun y => strLower y = strLower x

/-- Case-insensitive nonempty intersection. -/
def sharesCI (a b : List String) : Bool :=
  a.any fun x => memberCI x b

/-- Modelled from the spec: the hard-identifier matching rules of
section 4.3 - rule (a) shared hosting-platform username, rule (b) shared
email (both case-insensitive), and a shared URL of any kind, the
identifier form of rule (c) sanctioned by sections 1 and 3 (matched across
disparate identifiers: email, username, URL). -/
def matchesHard (f : Fragment) (e : Fellow) : Bool :=
  sharesCI f.usernames e.githubUsernames ||
    sharesCI f.emails e.emails ||
    f.urls.any (fun u => u ∈ e.urls)

/-- Modelled from the spec: rule (d) of section 4.3 - identical normalised
name alone, only when neither side carries a conflicting distinguishing
identifier (a username or an email that the other side cannot share). -/
def matchesName (f : Fragment) (e : Fellow) : Bool :=
  match optStr f.name, e.name with
  | some n, some m =>
    normName n = normName m &&
      (f.usernames.isEmpty || e.githubUsernames.isEmpty) &&
      (f.emails.isEmpty || e.emails.isEmpty)
  | _, _ => false

/-- Modelled from the spec: enrichment of an entity by a fragment -
identifier sets take the union, single-valued attributes are filled only
when missing (progressive enrichment, non-conflicting union). -/
def mergeFragment (e : Fellow) (f : Fragment) : Fellow :=
  { e with
    name := e.name.orElse fun _ => optStr f.name
    emails := setUnion e.emails f.emails
    githubUsernames := setUnion e.githubUsernames f.usernames
    urls := setUnion e.urls f.urls
    description := e.description.orElse fun _ => optStr f.description
    company := e.company.orElse fun _ => optStr f.company
    location := e.location.orElse fun _ => optStr f.location
    hireable := e.hireable.orElse fun _ => f.hireable
    githubProfile := e.githubProfile || f.githubProfile }

/-- Union of per-repository contribution maps, keeping the left entries. -/
def unionContributions (a b : List (String × Nat)) : List (String × Nat) :=
  a ++ b.filter fun kv => !(a.any fun kv2 => kv2.1 = kv.1)

/-- Modelled from the spec: fusing two entities judged to denote the same
identity (section 3: merged into one, union of fragments and relationship
sets; section 4.3: the registry holds at most one entity per distinct
identity). -/
def fuseFellow (a b : Fellow) : Fellow :=
  { name := a.name.orElse fun _ => b.name
    emails := setUnion a.emails b.emails
    githubUsernames := setUnion a.githubUsernames b.githubUsernames
    urls := setUnion a.urls b.urls
    description := a.description.orElse fun _ => b.description
    company := a.company.orElse fun _ => b.company
    location := a.location.orElse fun _ => b.location
    hireable := a.hireable.orElse fun _ => b.hireable
    githubProfile := a.githubProfile || b.githubProfile
    authorOf := setUnion a.authorOf b.authorOf
    maintainerOf := setUnion a.maintainerOf b.maintainerOf
    contributorOf := setUnion a.contributorOf b.contributorOf
    funderOf := setUnion a.funderOf b.funderOf
    sponsorOf := setUnion a.sponsorOf b.sponsorOf
    donorOf := setUnion a.donorOf b.donorOf
    contributionsOf := unionContributions a.contributionsOf b.contributionsOf }

/-- One registry record: the entity data plus whether the record is still
the live representative of its identity.  A record that has been fused
into a survivor stays in place (stale object references in the JavaScript
keep pointing at it) but is no longer returned by registry queries. -/
structure FellowRec where
  fellow : Fellow
  live : Bool
deriving Repr, DecidableEq

/-- Modelled from the spec: the process-wide profile identity registry,
scoped here to one resolution run (section 5 shared-resource policy).
Records are identified by their index, which never shifts. -/
structure Registry where
  recs : List FellowRec
deriving Repr, DecidableEq

/-- The empty registry. -/
def Registry.empty : Registry := { recs := [] }

/-- The record at an identifier, a dead blank when out of range. -/
def Registry.recAt (reg : Registry) (i : Nat) : FellowRec :=
  reg.recs.getD i { fellow := Fellow.blank, live := false }

/-- Replace the record at an identifier. -/
def Registry.setRec (reg : Registry) (i : Nat) (r : FellowRec) : Registry :=
  { recs := reg.recs.set i r }

/-- The live identifiers matching a predicate, in insertion order. -/
def Registry.liveMatches (reg : Registry) (p : Fellow → Bool) : List Nat :=
  (reg.recs.enum.filter fun ir => ir.2.live && p ir.2.fellow).map Prod.fst

/-- Modelled from the spec: ensure (section 4.3) - find the entities the
fragment denotes, fuse them into the earliest when the hard rules match
several (first match wins and survives), merge the fragment into the
survivor, fall back to the name rule, and create a new entity when nothing
matches.  Returns the updated registry and the identifier of the entity
the fragment now lives on. -/
def Registry.ensure (reg : Registry) (f : Fragment) : Registry × Nat :=
  match reg.liveMatches (matchesHard f) with
  | i :: others =>
    let fused := others.foldl (fun acc j => fuseFellow acc (reg.recAt j).fellow)
      (reg.recAt i).fellow
    let reg := others.foldl (fun r j => r.setRec j { r.recAt j with live := false }) reg
    let reg := reg.setRec i { reg.recAt i with fellow := mergeFragment fused f }
    (reg, i)
  | [] =>
    match reg.liveMatches (matchesName f) with
    | i :: _ =>
      (reg.setRec i { reg.recAt i with fellow := mergeFragment (reg.recAt i).fellow f }, i)
    | [] =>
      ({ recs := reg.recs ++ [{ fellow := mergeFragment Fellow.blank f, live := true }] },
        reg.recs.length)

/-- The six repository-association roles of an entity. -/
inductive Role where
  | author
  | maintainer
  | contributor
  | funder
  | sponsor
  | donor
deriving Repr, DecidableEq

/-- The role-specific association set of an entity. -/
def Fellow.roleSet (e : Fellow) : Role → List String
  | Role.author => e.authorOf
  | Role.maintainer => e.maintainerOf
  | Role.contributor => e.contributorOf
  | Role.funder => e.funderOf
  | Role.sponsor => e.sponsorOf
  | Role.donor => e.donorOf

/-- Replace the role-specific association set of an entity. -/
def Fellow.setRoleSet (e : Fellow) (r : Role) (l : List String) : Fellow :=
  match r with
  | Role.author => { e with authorOf := l }
  | Role.maintainer => { e with maintainerOf := l }
  | Role.contributor => { e with contributorOf := l }
  | Role.funder => { e with funderOf := l }
  | Role.sponsor => { e with sponsorOf := l }
  | Role.donor => { e with donorOf := l }

/-- Modelled from the spec: addRepoAssociation (section 4.3) - append the
slug to the role-specific set of the addressed record; attaching twice is
a no-op.  The record is addressed by identifier whether it is live or not,
as a JavaScript caller holding a stale object reference would. -/
def Registry.attachRole (reg : Registry) (i : Nat) (role : Role) (slug : String) : Registry :=
  reg.setRec i
    { reg.recAt i with
      fellow := (reg.recAt i).fellow.setRoleSet role
        (setInsert ((reg.recAt i).fellow.roleSet role) slug) }

/-- Record a per-repository contribution count on an entity (the
JavaScript map assignment overwrites the key). -/
def Registry.setContribution (reg : Registry) (i : Nat) (slug : String) (n : Nat) : Registry :=
  reg.setRec i
    { reg.recAt i with
      fellow := { (reg.recAt i).fellow with
        contributionsOf :=
          if (reg.recAt i).fellow.contributionsOf.any (fun kv => kv.1 = slug) then
            (reg.recAt i).fellow.contributionsOf.map fun kv =>
              if kv.1 = slug then (slug, n) else kv
          else (reg.recAt i).fellow.contributionsOf ++ [(slug, n)] } }

/-- Modelled from the spec: the per-repository per-role query
(entitiesByRepoAndRole, section 4.3) used by the orchestrator to read back
final membership: the live entities whose role set carries the slug, in
insertion order. -/
def Registry.ofRepository (reg : Registry) (role : Role) (slug : String) : List Fellow :=
  reg.recs.filterMap fun r =>
    if r.live && slug ∈ r.fellow.roleSet role then some r.fellow else none

-- ====================================================================
-- The resolution monad: explicit registry state, exceptions that keep
-- the state they left behind (as thrown JavaScript exceptions do), and a
-- count of the network requests issued.
-- ====================================================================

/-- Outcome of one pipeline computation: the result or the error message,
the registry it left behind, and how many network requests it issued. -/
structure RunOut (α : Type) where
  res : Except String α
  reg : Registry
  calls : Nat

/-- The resolution monad. -/
def ResolveM (α : Type) : Type := Registry → RunOut α

instance : Monad ResolveM where
  pure a := fun reg => { res := Except.ok a, reg := reg, calls := 0 }
  bind x f := fun reg =>
    let r := x reg
    match r.res with
    | Except.error e => { res := Except.error e, reg := r.reg, calls := r.calls }
    | Except.ok a =>
      let r2 := f a r.reg
      { res := r2.res, reg := r2.reg, calls := r.calls + r2.calls }

/-- Throw an error message. -/
def ResolveM.throw (e : String) : ResolveM α :=
  fun reg => { res := Except.error e, reg := reg, calls := 0 }

/-- Read the registry. -/
def ResolveM.getReg : ResolveM Registry :=
  fun reg => { res := Except.ok reg, reg := reg, calls := 0 }

/-- One network request whose outcome is dictated by the environment. -/
def ResolveM.fetch (x : Except String β) : ResolveM β :=
  fun reg => { res := x, reg := reg, calls := 1 }

/-- One network request whose failure is rethrown chained under a message,
as the adapters wrap their causes in Errlop. -/
def ResolveM.fetchChained (msg : String) (x : Except String β) : ResolveM β :=
  fun reg =>
    match x with
    | Except.ok v => { res := Except.ok v, reg := reg, calls := 1 }
    | Except.error e => { res := Except.error (msg ++ ": " ++ e), reg := reg, calls := 1 }

/-- A network liveness probe (fetchOk of the fellow package): one request,
answering the environment verdict on the URL. -/
def ResolveM.probe (ok : Bool) : ResolveM Bool :=
  fun reg => { res := Except.ok ok, reg := reg, calls := 1 }

/-- A catch block that logs and answers a fallback: the registry mutations
and request count of the failed attempt persist, as they do for a caught
JavaScript exception. -/
def ResolveM.tryOr (x : ResolveM α) (fb : α) : ResolveM α :=
  fun reg =>
    let r := x reg
    match r.res with
    | Except.error _ => { res := Except.ok fb, reg := r.reg, calls := r.calls }
    | Except.ok a => { res := Except.ok a, reg := r.reg, calls := r.calls }

/-- A catch block with a handler, for the user-then-organization profile
fallback. -/
def ResolveM.catchWith (x : ResolveM α) (handler : String → ResolveM α) : ResolveM α :=
  fun reg =>
    let r := x reg
    match r.res with
    | Except.error e =>
      let r2 := handler e r.reg
      { res := r2.res, reg := r2.reg, calls := r.calls + r2.calls }
    | Except.ok a => { res := Except.ok a, reg := r.reg, calls := r.calls }

/-- Rethrow any failure of the body chained under a message (the adapter
try blocks that wrap everything in one Errlop). -/
def ResolveM.mapErr (msg : String) (x : ResolveM α) : ResolveM α :=
  fun reg =>
    let r := x reg
    match r.res with
    | Except.error e => { res := Except.error (msg ++ ": " ++ e), reg := r.reg, calls := r.calls }
    | Except.ok a => { res := Except.ok a, reg := r.reg, calls := r.calls }

/-- Ensure a fragment on the registry, answering its entity identifier. -/
def ResolveM.ensure (f : Fragment) : ResolveM Nat :=
  fun reg =>
    let ri := reg.ensure f
    { res := Except.ok ri.2, reg := ri.1, calls := 0 }

/-- Update the registry. -/
def ResolveM.modifyReg (g : Registry → Registry) : ResolveM Unit :=
  fun reg => { res := Except.ok (), reg := g reg, calls := 0 }

/-- Sequential effectful map, left to right. -/
def ResolveM.mapList (f : α → ResolveM β) : List α → ResolveM (List β)
  | [] => pure []
  | a :: t => do
    let b ← f a
    let bs ← ResolveM.mapList f t
    pure (b :: bs)

/-- Sequential effectful iteration, left to right. -/
def ResolveM.forList (f : α → ResolveM Unit) : List α → ResolveM Unit
  | [] => pure ()
  | a :: t => do
    f a
    ResolveM.forList f t

/-- Set-style insertion on entity-identifier lists. -/
def idInsert (s : List Nat) (x : Nat) : List Nat :=
  if x ∈ s then s else s ++ [x]

/-- Deduplicate entity identifiers keeping first positions. -/
def dedupIds (l : List Nat) : List Nat :=
  l.foldl idInsert []

/-- Modelled from the spec: Fellow.add (section 4.3) - batch ensure over a
fragment list, answering the deduplicated entities. -/
def addFragmentsGo : List Fragment → Registry → Registry × List Nat
  | [], reg => (reg, [])
  | f :: t, reg =>
    let ri := reg.ensure f
    let rest := addFragmentsGo t ri.1
    (rest.1, ri.2 :: rest.2)

/-- Modelled from the spec: Fellow.add (section 4.3) - the batch ensure as
a synchronous registry operation: no requests, no failures, the ensured
entities deduplicated. -/
def ResolveM.addFragments (frags : List Fragment) : ResolveM (List Nat) :=
  fun reg =>
    let out := addFragmentsGo frags reg
    { res := Except.ok (dedupIds out.2), reg := out.1, calls := 0 }

-- ====================================================================
-- Manifest person entries as fragments
-- ====================================================================

/-- Extract the first delimited span from a person string, answering the
inner text and the string with the span removed. -/
def extractDelim (s : String) (op cl : Char) : Option String × String :=
  let cs := s.toList
  let before := cs.takeWhile (fun c => c ≠ op)
  match cs.drop before.length with
  | _ :: rest =>
    let inner := rest.takeWhile (fun c => c ≠ cl)
    match rest.drop inner.length with
    | _ :: after => (some (String.mk inner), String.mk (before ++ after))
    | [] => (none, s)
  | [] => (none, s)

/-- Modelled from the spec: the manifest adapter (section 4.4) reads a
person string of the form name, email in angle brackets, url in
parentheses, into an identity fragment. -/
def fragmentOfPersonString (s : String) : Fragment :=
  let (email, s1) := extractDelim s '<' '>'
  let (url, s2) := extractDelim s1 '(' ')'
  { Fragment.blank with
    name := optStr (some (String.mk (listTrim s2.toList)))
    email := match email with
      | some e => optStr (some (String.mk (listTrim e.toList)))
      | none => none
    websiteUrl := match url with
      | some u => optStr (some (String.mk (listTrim u.toList)))
      | none => none }

/-- Modelled from the spec: the manifest adapter (section 4.4) reads a
structured person record into an identity fragment; the username field is
the hosting-platform username. -/
def fragmentOfPerson : PersonEntry → Fragment
  | PersonEntry.str s => fragmentOfPersonString s
  | PersonEntry.person p =>
    { Fragment.blank with
      name := optStr p.name
      email := optStr p.email
      githubUsername := optStr p.username
      websiteUrl := optStr p.web }

/-- Whether a person entry is truthy (Fellow.add skips falsy inputs such
as the empty string). -/
def personTruthy : PersonEntry → Bool
  | PersonEntry.str s => s ≠ ""
  | PersonEntry.person _ => true

/-- Seed entities from a list of manifest person entries. -/
def ResolveM.addPersons (entries : List PersonEntry) : ResolveM (List Nat) :=
  ResolveM.addFragments ((entries.filter personTruthy).map fragmentOfPerson)

-- ====================================================================
-- Remote data shapes and the resolution environment
-- ====================================================================

/-- Substring test used for the api.github.com and bot-marker checks. -/
def containsSubstr (s pat : String) : Bool :=
  containsSub pat.toList s.toList

/-- A REST profile response (interface GitHubProfileREST, the fields
getGitHubProfileFromApiUrl consumes at lines 3943-3954). -/
structure GitHubProfileREST where
  login : String
  name : Option String
  email : Option String
  bio : Option String
  company : Option String
  blog : Option String
  location : Option String
  hireable : Option Bool
  html_url : String
deriving Repr, DecidableEq

/-- The fragment of a REST profile (lines 3943-3954). -/
def fragmentOfProfileREST (p : GitHubProfileREST) : Fragment :=
  { Fragment.blank with
    githubProfile := true
    company := optStr p.company
    description := optStr p.bio
    email := optStr p.email
    githubUrl := optStr (some p.html_url)
    githubUsername := optStr (some p.login)
    hireable := p.hireable
    homepage := optStr p.blog
    location := optStr p.location
    name := optStr p.name }

/-- A GraphQL profile node (the user, organization and sponsor-connection
node shapes of lines 3837-3850, 3892-3902 and 4026-4046, pooled). -/
structure GitHubGraphProfile where
  login : String
  name : Option String
  email : Option String
  bio : Option String
  description : Option String
  company : Option String
  websiteUrl : Option String
  location : Option String
  isHireable : Option Bool
  url : String
deriving Repr, DecidableEq

/-- The fragment of a GraphQL user profile (lines 3859-3870). -/
def fragmentOfUserGraph (p : GitHubGraphProfile) : Fragment :=
  { Fragment.blank with
    githubProfile := true
    company := optStr p.company
    description := optStr p.bio
    email := optStr p.email
    githubUrl := optStr (some p.url)
    githubUsername := optStr (some p.login)
    hireable := p.isHireable
    location := optStr p.location
    name := optStr p.name
    websiteUrl := optStr p.websiteUrl }

/-- The fragment of a GraphQL organization profile (lines 3913-3922). -/
def fragmentOfOrgGraph (p : GitHubGraphProfile) : Fragment :=
  { Fragment.blank with
    githubProfile := true
    description := optStr p.description
    email := optStr p.email
    githubUrl := optStr (some p.url)
    githubUsername := optStr (some p.login)
    location := optStr p.location
    name := optStr p.name
    websiteUrl := optStr p.websiteUrl }

/-- The fragment of a sponsor-connection node (getGitHubSponsorsProfile,
lines 3982-3997): the description falls back from the user bio to the
organization description. -/
def fragmentOfSponsorNode (p : GitHubGraphProfile) : Fragment :=
  { Fragment.blank with
    githubProfile := true
    company := optStr p.company
    description := (optStr p.bio).orElse fun _ => optStr p.description
    email := optStr p.email
    githubUrl := optStr (some p.url)
    githubUsername := optStr (some p.login)
    hireable := p.isHireable
    location := optStr p.location
    name := optStr p.name
    websiteUrl := optStr p.websiteUrl }

/-- One contributor record of the REST contributor listing. -/
structure GitHubContributorREST where
  login : String
  contributions : Nat
  url : String
deriving Repr, DecidableEq

/-- One page of the sponsors GraphQL connection: whether the nodes field
is an array, the nodes, and the page cursor information. -/
structure GitHubSponsorsPage where
  nodesOk : Bool
  nodes : List GitHubGraphProfile
  hasNextPage : Bool
  endCursor : String
deriving Repr, DecidableEq

/-- An OpenCollective member record (interface OpenCollectiveMember,
lines 2854-2875).  The monetary amounts are in dollars; the source
multiplies them by one hundred to compare against the cent thresholds.
Whole dollars are used here, which the integral comparison logic
preserves.  Null string fields are the empty string. -/
structure OpenCollectiveMember where
  role : String
  totalAmountDonated : Nat
  lastTransactionAt : Int
  lastTransactionAmount : Nat
  profile : String
  name : String
  description : Option String
  github : String
  twitter : String
  website : String
  email : String
deriving Repr, DecidableEq

/-- The funding-file value shapes: absent, a string, or a string list. -/
inductive StrOrList where
  | absent
  | str (s : String)
  | list (l : List String)
deriving Repr, DecidableEq

/-- A FUNDING.yml document (interface FundingData), restricted to the two
platforms the pipeline consults. -/
structure FundingData where
  github : StrOrList
  open_collective : StrOrList
deriving Repr, DecidableEq

/-- The empty funding document, the fallback on fetch failure. -/
def FundingData.blank : FundingData :=
  { github := StrOrList.absent, open_collective := StrOrList.absent }

/-- The remote world a resolution run interacts with: one field per
endpoint the pipeline can reach, plus the process environment credentials,
the URL liveness oracle and the last-month time boundary. -/
structure BackersEnv where
  envCreds : GitHubCredentials
  packageDataResp : Except String PackageData
  fundingResp : Except String FundingData
  contributorsResp : Except String (List GitHubContributorREST)
  profileRest : String → Except String GitHubProfileREST
  userProfile : String → Except String GitHubGraphProfile
  orgProfile : String → Except String GitHubGraphProfile
  thanksdevMonthly : Except String ThanksDevResponse
  thanksdevYearly : Except String ThanksDevResponse
  opencollectiveResp : Except String (List OpenCollectiveMember)
  githubSponsorsPages : List GitHubSponsorsPage
  urlOk : String → Bool
  lastMonth : Int

-- ====================================================================
-- Query options of the resolution pipeline (lines 2592-2611)
-- ====================================================================

/-- A string-or-boolean-or-null option value. -/
inductive OptStr where
  | absent
  | str (s : String)
  | bool (b : Bool)
deriving Repr, DecidableEq

/-- A package-data-or-boolean-or-null option value. -/
inductive OptPkg where
  | absent
  | data (d : PackageData)
  | bool (b : Bool)
deriving Repr, DecidableEq

/-- BackersQueryOptions (lines 2592-2611), restricted to the fields the
pipeline reads. -/
structure BackersQueryOptions where
  githubSlug : OptStr
  packageData : OptPkg
  githubSponsorsUsername : OptStr
  opencollectiveUsername : OptStr
  thanksdevGithubUsername : OptStr
  offline : Option Bool
  sponsorCentsThreshold : Option Nat
  donorCentsThreshold : Option Nat
  credentials : Option GitHubCredentials
deriving Repr

/-- The all-default options object. -/
def BackersQueryOptions.blank : BackersQueryOptions :=
  { githubSlug := OptStr.absent, packageData := OptPkg.absent
    githubSponsorsUsername := OptStr.absent, opencollectiveUsername := OptStr.absent
    thanksdevGithubUsername := OptStr.absent, offline := none
    sponsorCentsThreshold := none, donorCentsThreshold := none, credentials := none }

/-- The username-option resolution pattern of lines 4228-4250: an explicit
false disables the platform, an explicit nonempty string wins, otherwise
the fallback chain. -/
def usernameOption (o : OptStr) (fallback : String) : String :=
  match o with
  | OptStr.bool false => ""
  | OptStr.str s => jsOr s fallback
  | _ => fallback

-- ====================================================================
-- Source adapters in the resolution monad
-- ====================================================================

/-- The ThanksDev profile fragment (getThanksDevProfile, line 2797): only
the ThanksDev profile URL, derived from the platform code and username. -/
def thanksdevFragment (d : ThanksDevDonor) : Fragment :=
  { Fragment.blank with
    thanksdevUrl := some ("https://thanks.dev/d/" ++ d.platform ++ "/" ++ d.username) }

/-- getBackersFromThanksDev (lines 2808-2852): fetch the thirty-day window
and filter it into sponsors, fetch the all-time window and filter it into
donors, each fetch failure rethrown chained under its message; then ensure
the fragments.  Answers the sponsor and donor entity identifiers. -/
def getBackersFromThanksDevM (platform username : String)
    (opts : BackersQueryOptions) (env : BackersEnv) : ResolveM (List Nat × List Nat) := do
  let monthly ← ResolveM.fetchChained
    ("Fetching ThanksDev sponsors failed for: " ++ platform ++ "/" ++ username)
    env.thanksdevMonthly
  let sponsorRecs := thanksdevSponsorFilter opts.sponsorCentsThreshold monthly.donors
  let yearly ← ResolveM.fetchChained
    ("Fetching ThanksDev donors failed for: " ++ platform ++ "/" ++ username)
    env.thanksdevYearly
  let donorRecs := thanksdevDonorFilter opts.donorCentsThreshold yearly.donors
  let sponsorIds ← ResolveM.addFragments (sponsorRecs.map thanksdevFragment)
  let donorIds ← ResolveM.addFragments (donorRecs.map thanksdevFragment)
  pure (sponsorIds, donorIds)

/-- The remainder after the last occurrence, at position one or beyond, of
the characters dot com slash (the greedy anchored replacement of
line 2925). -/
def afterLastComSlashTail : List Char → Option (List Char)
  | [] => none
  | c :: t =>
    match afterLastComSlashTail t with
    | some r => some r
    | none =>
      if ".com/".toList.isPrefixOf (c :: t) then some ((c :: t).drop 5)
      else none

/-- The OpenCollective username derivation of line 2925: strip everything
through the last dot com slash; when the pattern does not occur the
string is unchanged. -/
def stripOpenCollectiveHost (s : String) : String :=
  match s.toList with
  | [] => ""
  | _ :: t =>
    match afterLastComSlashTail t with
    | some r => String.mk r
    | none => s

/-- The GitHub-URL repair loop of getBackersFromOpenCollective
(lines 2922-2933): for each member with a truthy GitHub URL that does not
resolve, derive a candidate from the OpenCollective profile slug and keep
it only when it resolves, clearing the field otherwise.  Each liveness
probe is one request; the probe for the candidate is issued only when the
derived username is truthy. -/
def repairOpenCollectiveProfiles (env : BackersEnv) :
    List OpenCollectiveMember → ResolveM (List OpenCollectiveMember) :=
  ResolveM.mapList fun p =>
    if p.github ≠ "" then do
      let notOk ← ResolveM.probe (!env.urlOk p.github)
      if notOk then
        let username := stripOpenCollectiveHost p.profile
        let githubCandidate := "https://github.com/" ++ username
        if username ≠ "" then do
          let ok ← ResolveM.probe (env.urlOk githubCandidate)
          if ok then pure { p with github := githubCandidate }
          else pure { p with github := "" }
        else pure { p with github := "" }
      else pure p
    else pure p

/-- The sponsor filter of getBackersFromOpenCollective (lines 2935-2942):
backer role, truthy last transaction amount, above the sponsor cent
threshold when that is truthy, and a last transaction within the last
month. -/
def openCollectiveSponsorFilter (sponsorCentsThreshold : Option Nat) (lastMonth : Int)
    (members : List OpenCollectiveMember) : List OpenCollectiveMember :=
  members.filter fun m =>
    m.role = "BACKER" && m.lastTransactionAmount ≠ 0 &&
      (!optNatTruthy sponsorCentsThreshold ||
        m.lastTransactionAmount * 100 > sponsorCentsThreshold.getD 0) &&
      m.lastTransactionAt ≥ lastMonth

/-- The donor filter of getBackersFromOpenCollective (lines 2943-2949):
backer role, truthy lifetime total, above the donor cent threshold when
that is truthy. -/
def openCollectiveDonorFilter (donorCentsThreshold : Option Nat)
    (members : List OpenCollectiveMember) : List OpenCollectiveMember :=
  members.filter fun m =>
    m.role = "BACKER" && m.totalAmountDonated ≠ 0 &&
      (!optNatTruthy donorCentsThreshold ||
        m.totalAmountDonated * 100 > donorCentsThreshold.getD 0)

/-- The OpenCollective profile fragment (getOpenCollectiveProfile,
lines 2898-2910). -/
def openCollectiveFragment (m : OpenCollectiveMember) : Fragment :=
  { Fragment.blank with
    description := optStr m.description
    githubUrl := optStr (some m.github)
    name := optStr (some m.name)
    email := optStr (some m.email)
    opencollectiveUrl := optStr (some m.profile)
    twitterUrl := optStr (some m.twitter)
    websiteUrl := optStr (some m.website) }

/-- getBackersFromOpenCollective (lines 2912-2960): fetch the member list,
repair the GitHub URLs, filter into sponsors and donors, ensure the
fragments; every failure is rethrown chained under one message. -/
def getBackersFromOpenCollectiveM (username : String)
    (opts : BackersQueryOptions) (env : BackersEnv) : ResolveM (List Nat × List Nat) :=
  ResolveM.mapErr
    ("Fetching OpenCollective sponsors and donors failed for: " ++ username) do
    let members ← ResolveM.fetch env.opencollectiveResp
    let members ← repairOpenCollectiveProfiles env members
    let sponsors := openCollectiveSponsorFilter opts.sponsorCentsThreshold env.lastMonth members
    let donors := openCollectiveDonorFilter opts.donorCentsThreshold members
    let sponsorIds ← ResolveM.addFragments (sponsors.map openCollectiveFragment)
    let donorIds ← ResolveM.addFragments (donors.map openCollectiveFragment)
    pure (sponsorIds, donorIds)

/-- The sponsors-connection cursor loop of getBackersFromGitHubSponsors
(lines 4012-4065), driven by the finite page stream the endpoint answers:
each iteration is one request, a nodes field that is not an array is a
failure, and the loop stops when the page reports no next page (or the
stream is exhausted). -/
def githubSponsorsLoop (username : String) :
    List GitHubSponsorsPage → ResolveM (List GitHubGraphProfile)
  | [] => pure []
  | p :: rest => do
    let _ ← ResolveM.probe true
    if p.nodesOk then
      if p.hasNextPage then do
        let more ← githubSponsorsLoop username rest
        pure (p.nodes ++ more)
      else pure p.nodes
    else
      ResolveM.throw
        ("Response did not include an array of GitHub Sponsors for username: " ++ username)

/-- getBackersFromGitHubSponsors (lines 4000-4076): aggregate the sponsor
connection pages, ensure the node fragments, and classify the result as
both sponsors and donors; every failure is rethrown chained under one
message. -/
def getBackersFromGitHubSponsorsM (username : String)
    (_opts : BackersQueryOptions) (env : BackersEnv) : ResolveM (List Nat × List Nat) :=
  ResolveM.mapErr ("Fetching GitHub Sponsors failed for username: " ++ username) do
    let profiles ← githubSponsorsLoop username env.githubSponsorsPages
    let sponsors ← ResolveM.addFragments (profiles.map fragmentOfSponsorNode)
    pure (sponsors, sponsors)

/-- getGitHubProfileFromApiUrl (lines 3933-3956): reject URLs outside the
API host, fetch the REST profile, ensure its fragment. -/
def getGitHubProfileFromApiUrlM (url : String) (env : BackersEnv) : ResolveM Nat := do
  if containsSubstr url "api.github.com" then do
    let profile ← ResolveM.fetch (env.profileRest url)
    ResolveM.ensure (fragmentOfProfileREST profile)
  else
    ResolveM.throw ("Cannot fetch the GitHub Profile for non-API URL: " ++ url)

/-- getGitHubUser (lines 3832-3878): fetch the user GraphQL profile and
ensure its fragment; failures are rethrown chained under one message.  An
empty profile in a successful response is folded into the environment
failure verdict. -/
def getGitHubUserM (username : String) (env : BackersEnv) : ResolveM Nat :=
  ResolveM.mapErr ("Fetching GitHub User failed for username: " ++ username) do
    let profile ← ResolveM.fetch (env.userProfile username)
    ResolveM.ensure (fragmentOfUserGraph profile)

/-- getGitHubOrganization (lines 3884-3930): the organization analogue of
getGitHubUser. -/
def getGitHubOrganizationM (username : String) (env : BackersEnv) : ResolveM Nat :=
  ResolveM.mapErr ("Fetching GitHub Organization failed for username: " ++ username) do
    let profile ← ResolveM.fetch (env.orgProfile username)
    ResolveM.ensure (fragmentOfOrgGraph profile)

/-- getGitHubProfile (lines 3959-3979): an API URL goes to the REST
fetch; otherwise try the user lookup and fall back to the organization
lookup, raising a chained error only when both fail. -/
def getGitHubProfileM (username : String) (env : BackersEnv) : ResolveM Nat :=
  if containsSubstr username "api.github.com" then
    getGitHubProfileFromApiUrlM username env
  else
    ResolveM.catchWith (getGitHubUserM username env) fun userError =>
      ResolveM.catchWith (getGitHubOrganizationM username env) fun organizationError =>
        ResolveM.throw
          ("Failed to fetch the GitHub Profile for the username: " ++ username ++
            ": " ++ organizationError ++ ": " ++ userError)

/-- Modelled from the spec: the deterministic ordering of Fellow.sort
(section 4.3) - by display name, falling back to username then URL,
case-insensitively, ties keeping insertion order (stable insertion). -/
def fellowSortKey (e : Fellow) : String :=
  strLower (jsOr (e.name.getD "") (jsOr (e.githubUsernames.headD "") (e.urls.headD "")))

/-- Stable insertion into a key-sorted list: the element lands after every
element whose key is not greater. -/
def insertByKey (key : α → String) (x : α) : List α → List α
  | [] => [x]
  | y :: t => if key y ≤ key x then y :: insertByKey key x t else x :: y :: t

/-- Stable sort by key. -/
def sortByKey (key : α → String) (l : List α) : List α :=
  l.foldl (fun acc x => insertByKey key x acc) []

/-- Sort entity identifiers by the Fellow ordering read off a registry. -/
def sortIds (reg : Registry) (ids : List Nat) : List Nat :=
  sortByKey (fun i => fellowSortKey (reg.recAt i).fellow) ids

/-- getGitHubContributors (lines 4078-4112): fetch the contributor
listing (the paginated REST aggregation abstracted as one environment
fetch), drop bot logins, fetch each remaining profile, record the
per-repository contribution count and the contributor association, and
answer the entities sorted. -/
def getGitHubContributorsM (slug : String) (env : BackersEnv) : ResolveM (List Nat) := do
  let data ← ResolveM.fetch env.contributorsResp
  if data.isEmpty then pure []
  else do
    let ids ← ResolveM.mapList
      (fun c => do
        let i ← getGitHubProfileFromApiUrlM c.url env
        ResolveM.modifyReg fun reg => reg.setContribution i slug c.contributions
        ResolveM.modifyReg fun reg => reg.attachRole i Role.contributor slug
        pure i)
      (data.filter fun c => !containsSubstr c.login "[bot]")
    let reg ← ResolveM.getReg
    pure (sortIds reg (dedupIds ids))

-- ====================================================================
-- The backer-resolution orchestrator
-- (src/source/index.ts lines 4153-4448, claims C1-C4)
-- ====================================================================

/-- The locally-accumulated category lists of one resolution run, holding
entity identifiers (the JavaScript lists hold object references). -/
structure BackersIds where
  author : List Nat
  authors : List Nat
  maintainers : List Nat
  contributors : List Nat
  funders : List Nat
  sponsors : List Nat
  donors : List Nat
deriving Repr, DecidableEq

/-- The seven-category backers result (interface Backers). -/
structure Backers where
  author : List Fellow
  authors : List Fellow
  maintainers : List Fellow
  contributors : List Fellow
  funders : List Fellow
  sponsors : List Fellow
  donors : List Fellow
deriving Repr, DecidableEq

/-- The all-empty backers result the outermost catch answers
(lines 4400-4408). -/
def emptyBackers : Backers :=
  { author := [], authors := [], maintainers := [], contributors := []
    funders := [], sponsors := [], donors := [] }

/-- attachBackersToGitHubSlug (lines 4162-4180): attach every member of
every category list to the slug under the corresponding association
(author and authors both under the author association), skipped entirely
when the slug is falsy. -/
def attachAll (role : Role) (slug : String) (ids : List Nat) (reg : Registry) : Registry :=
  ids.foldl (fun acc i => acc.attachRole i role slug) reg

/-- attachBackersToGitHubSlug as a synchronous registry operation: attach
every member of every category list to the slug under the corresponding
association (author and authors both under the author association, the
donors last), skipped entirely when the slug is falsy. -/
def attachBackersToGitHubSlug (r : BackersIds) (slug : String) (reg : Registry) : Registry :=
  if slug ≠ "" then
    attachAll Role.donor slug r.donors
      (attachAll Role.sponsor slug r.sponsors
        (attachAll Role.funder slug r.funders
          (attachAll Role.contributor slug r.contributors
            (attachAll Role.maintainer slug r.maintainers
              (attachAll Role.author slug r.authors
                (attachAll Role.author slug r.author reg))))))
  else reg

/-- The pipeline form of attachBackersToGitHubSlug. -/
def attachBackersToGitHubSlugM (r : BackersIds) (slug : String) : ResolveM Unit :=
  ResolveM.modifyReg (attachBackersToGitHubSlug r slug)

/-- verifyUrlsOfBackers (lines 4183-4189), with fellow.verifyUrls
modelled from the spec (section 4.5 step 6: best-effort URL liveness
checks whose failures are ignored): one request per URL recorded on each
listed entity, registry unchanged. -/
def verifyUrlsOfBackersM (r : BackersIds) : ResolveM Unit :=
  fun reg =>
    { res := Except.ok (), reg := reg
      calls :=
        ((r.author ++ r.authors ++ r.maintainers ++ r.contributors ++
          r.funders ++ r.sponsors ++ r.donors).map
            fun i => ((reg.recAt i).fellow.urls).length).sum }

/-- getPackageData of a slug with the empty-object fallback the pipeline
passes (lines 2662-2684 and 4206): one request; a failed fetch or parse
answers the fallback instead of failing. -/
def getPackageDataM (env : BackersEnv) : ResolveM PackageData :=
  fun reg =>
    { res := Except.ok (match env.packageDataResp with
        | Except.ok d => d
        | Except.error _ => PackageData.blank)
      reg := reg, calls := 1 }

/-- getFundingData of a slug with the empty fallback the pipeline passes
(lines 2746-2772 and 4255): one request, fallback on failure. -/
def getFundingDataM (env : BackersEnv) : ResolveM FundingData :=
  fun reg =>
    { res := Except.ok (match env.fundingResp with
        | Except.ok d => d
        | Except.error _ => FundingData.blank)
      reg := reg, calls := 1 }

/-- Pipeline step one (lines 4195-4215): resolve the slug and the package
data from the options - fetch the package data from the slug when only the
slug is given and the run is not offline, and extract the slug from the
package data when no slug option was given, ignoring extraction failure. -/
def resolveSlugPkg (opts : BackersQueryOptions) (env : BackersEnv) :
    ResolveM (String × PackageData) := do
  let githubSlug0 := match opts.githubSlug with | OptStr.str s => s | _ => ""
  let packageData0 := match opts.packageData with | OptPkg.data d => d | _ => PackageData.blank
  let packageData ←
    if githubSlug0 ≠ "" && opts.packageData = OptPkg.absent && opts.offline ≠ some true then
      getPackageDataM env
    else pure packageData0
  let githubSlug :=
    if opts.githubSlug = OptStr.absent then
      match getGitHubSlugFromPackageData packageData with
      | Except.ok s => s
      | Except.error _ => githubSlug0
    else githubSlug0
  pure (githubSlug, packageData)

/-- The resolved financial-platform usernames. -/
structure ResolvedUsernames where
  thanksdev : String
  githubSponsors : String
  opencollective : String
deriving Repr, DecidableEq

/-- Pipeline step two (lines 4224-4276): resolve the three platform
usernames from the explicit options, the badge configuration, the
fallback owner (ThanksDev only), and lazily the funding file for the two
platforms it can configure. -/
def resolveUsernames (opts : BackersQueryOptions) (env : BackersEnv)
    (sp : String × PackageData) : ResolveM ResolvedUsernames := do
  let githubSlug := sp.1
  let packageData := sp.2
  let fallbackUsername :=
    if githubSlug ≠ "" then String.mk (githubSlug.toList.takeWhile fun c => c ≠ '/')
    else ""
  let thanksdevGithubUsername := usernameOption opts.thanksdevGithubUsername
    (jsOr packageData.badges.thanksdevGithubUsername fallbackUsername)
  let githubSponsorsUsername := usernameOption opts.githubSponsorsUsername
    packageData.badges.githubSponsorsUsername
  let opencollectiveUsername := usernameOption opts.opencollectiveUsername
    packageData.badges.opencollectiveUsername
  if opts.offline ≠ some true &&
      (githubSponsorsUsername = "" || opencollectiveUsername = "") then do
    let fundingData ← getFundingDataM env
    let githubSponsorsUsername :=
      if githubSponsorsUsername = "" then
        match fundingData.github with
        | StrOrList.str s => s
        | StrOrList.list (x :: _) => x
        | _ => githubSponsorsUsername
      else githubSponsorsUsername
    let opencollectiveUsername :=
      if opencollectiveUsername = "" then
        match fundingData.open_collective with
        | StrOrList.str s => s
        | StrOrList.list (x :: _) => x
        | _ => opencollectiveUsername
      else opencollectiveUsername
    pure { thanksdev := thanksdevGithubUsername
           githubSponsors := githubSponsorsUsername
           opencollective := opencollectiveUsername }
  else
    pure { thanksdev := thanksdevGithubUsername
           githubSponsors := githubSponsorsUsername
           opencollective := opencollectiveUsername }

/-- Pipeline step three (lines 4279-4297): seed the seven category lists
from the package data person fields - the donors list is built from the
funders, sponsors and donors entries, the contributors list from the
maintainers and contributors entries - and attach everything to the
slug. -/
def seedFromPackageData (sp : String × PackageData) : ResolveM BackersIds := do
  let packageData := sp.2
  let author ← ResolveM.addPersons packageData.author.toList
  let authors ← ResolveM.addPersons (packageData.author.toList ++ packageData.authors)
  let maintainers ← ResolveM.addPersons packageData.maintainers
  let contributors ← ResolveM.addPersons
    (packageData.maintainers ++ packageData.contributors)
  let funders ← ResolveM.addPersons packageData.funders
  let sponsors ← ResolveM.addPersons packageData.sponsors
  let donors ← ResolveM.addPersons
    (packageData.funders ++ packageData.sponsors ++ packageData.donors)
  let r : BackersIds :=
    { author := author, authors := authors, maintainers := maintainers
      contributors := contributors, funders := funders, sponsors := sponsors
      donors := donors }
  attachBackersToGitHubSlugM r sp.1
  pure r

/-- Pipeline step four, contributors (lines 4300-4310): when credentials
are usable and the run is not offline, fetch the repository contributors
and append them; any failure is caught and logged, contributing
nothing. -/
def stepContributors (opts : BackersQueryOptions) (env : BackersEnv) (authed : Bool)
    (slug : String) (r : BackersIds) : ResolveM BackersIds :=
  if authed && opts.offline ≠ some true then
    ResolveM.tryOr
      (do
        let fetched ← getGitHubContributorsM slug env
        pure { r with contributors := r.contributors ++ fetched })
      r
  else pure r

/-- Pipeline step five, ThanksDev (lines 4314-4328): when a username is
resolved and the run is not offline, fetch and append the sponsors and
donors; any failure is caught and logged, contributing nothing. -/
def stepThanksDev (opts : BackersQueryOptions) (env : BackersEnv)
    (username : String) (r : BackersIds) : ResolveM BackersIds :=
  if username ≠ "" && opts.offline ≠ some true then
    ResolveM.tryOr
      (do
        let fetched ← getBackersFromThanksDevM "gh" username opts env
        pure { r with sponsors := r.sponsors ++ fetched.1, donors := r.donors ++ fetched.2 })
      r
  else pure r

/-- Pipeline step six, OpenCollective (lines 4331-4345): the
OpenCollective analogue of the ThanksDev step. -/
def stepOpenCollective (opts : BackersQueryOptions) (env : BackersEnv)
    (username : String) (r : BackersIds) : ResolveM BackersIds :=
  if username ≠ "" && opts.offline ≠ some true then
    ResolveM.tryOr
      (do
        let fetched ← getBackersFromOpenCollectiveM username opts env
        pure { r with sponsors := r.sponsors ++ fetched.1, donors := r.donors ++ fetched.2 })
      r
  else pure r

/-- Pipeline step seven, GitHub Sponsors (lines 4348-4364): requires
usable credentials, a non-offline run and a resolved username; any failure
is caught and logged, contributing nothing. -/
def stepGitHubSponsors (opts : BackersQueryOptions) (env : BackersEnv) (authed : Bool)
    (username : String) (r : BackersIds) : ResolveM BackersIds :=
  if authed && opts.offline ≠ some true then
    if username ≠ "" then
      ResolveM.tryOr
        (do
          let fetched ← getBackersFromGitHubSponsorsM username opts env
          pure { r with sponsors := r.sponsors ++ fetched.1, donors := r.donors ++ fetched.2 })
        r
    else pure r
  else pure r

/-- Pipeline step eight, profile enrichment (lines 4366-4375): when
credentials are usable and the run is not offline, fetch the profile of
every donor that has a hosting username but no fetched profile yet.  This
step has no catch of its own: a failure aborts to the outermost catch. -/
def stepEnrichProfiles (opts : BackersQueryOptions) (env : BackersEnv) (authed : Bool)
    (r : BackersIds) : ResolveM BackersIds :=
  if authed && opts.offline ≠ some true then do
    ResolveM.forList
      (fun i => do
        let reg ← ResolveM.getReg
        let f := (reg.recAt i).fellow
        match f.githubUsernames.head? with
        | some username =>
          if !f.githubProfile then do
            let _ ← getGitHubProfileM username env
            pure ()
          else pure ()
        | none => pure ())
      r.donors
    pure r
  else pure r

/-- Pipeline step nine, URL verification (lines 4377-4378): issued for
every run whose offline option is not explicitly false. -/
def stepVerify (opts : BackersQueryOptions) (r : BackersIds) : ResolveM BackersIds :=
  if opts.offline ≠ some false then do
    verifyUrlsOfBackersM r
    pure r
  else pure r

/-- Pipeline final step (lines 4380-4391): re-attach every category member
to the slug associations, then answer the result - the author category
from the locally-accumulated list, the six plural categories read back
from the registry by slug and role. -/
def finalizeBackers (slug : String) (r : BackersIds) : ResolveM Backers := do
  attachBackersToGitHubSlugM r slug
  let reg ← ResolveM.getReg
  pure
    { author := r.author.map fun i => (reg.recAt i).fellow
      authors := reg.ofRepository Role.author slug
      maintainers := reg.ofRepository Role.maintainer slug
      contributors := reg.ofRepository Role.contributor slug
      funders := reg.ofRepository Role.funder slug
      sponsors := reg.ofRepository Role.sponsor slug
      donors := reg.ofRepository Role.donor slug }

/-- The try block of getBackers (lines 4192-4391): the staged pipeline. -/
def getBackersInner (opts : BackersQueryOptions) (env : BackersEnv) : ResolveM Backers := do
  let sp ← resolveSlugPkg opts env
  let authed := hasCredentials (opts.credentials.getD env.envCreds)
  let un ← resolveUsernames opts env sp
  let r ← seedFromPackageData sp
  let r ← stepContributors opts env authed sp.1 r
  let r ← stepThanksDev opts env un.thanksdev r
  let r ← stepOpenCollective opts env un.opencollective r
  let r ← stepGitHubSponsors opts env authed un.githubSponsors r
  let r ← stepEnrichProfiles opts env authed r
  let r ← stepVerify opts r
  finalizeBackers sp.1 r

/-- One full getBackers run from the empty registry: the outcome, the
final registry, and the number of network requests issued. -/
def runGetBackers (opts : BackersQueryOptions) (env : BackersEnv) : RunOut Backers :=
  getBackersInner opts env Registry.empty

/-- getBackers (lines 4192-4410): the pipeline with the outermost catch
that logs and degrades any uncaught failure to the all-empty result. -/
def getBackers (opts : BackersQueryOptions) (env : BackersEnv) : Backers :=
  match (runGetBackers opts env).res with
  | Except.ok b => b
  | Except.error _ => emptyBackers

/-- The number of network requests one getBackers run issues. -/
def getBackersCalls (opts : BackersQueryOptions) (env : BackersEnv) : Nat :=
  (runGetBackers opts env).calls

/-- Deduplicate fellows by value keeping first positions (the JavaScript
set union over object references). -/
def dedupFellows (l : List Fellow) : List Fellow :=
  l.foldl (fun acc x => if x ∈ acc then acc else acc ++ [x]) []

/-- getBackersFromRepositories (lines 4412-4448): run the pipeline once
per slug (each run keeping its own outermost catch) against one shared
registry, then union, deduplicate and sort each category across the
runs. -/
def getBackersFromRepositories (slugs : List String)
    (opts : BackersQueryOptions) (env : BackersEnv) : Backers :=
  let step := fun (acc : Registry × List Backers) (slug : String) =>
    let out := getBackersInner { opts with githubSlug := OptStr.str slug } env acc.1
    match out.res with
    | Except.ok b => (out.reg, acc.2 ++ [b])
    | Except.error _ => (out.reg, acc.2 ++ [emptyBackers])
  let results := (slugs.foldl step (Registry.empty, [])).2
  let gather := fun (f : Backers → List Fellow) =>
    sortByKey fellowSortKey (dedupFellows (results.foldl (fun acc b => acc ++ f b) []))
  { author := gather Backers.author
    authors := gather Backers.authors
    maintainers := gather Backers.maintainers
    contributors := gather Backers.contributors
    funders := gather Backers.funders
    sponsors := gather Backers.sponsors
    donors := gather Backers.donors }

-- ====================================================================
-- Concrete scenario data used by the claim theorems
-- ====================================================================

/-- An environment on which every endpoint fails: the baseline for runs
that must not depend on the network. -/
def envUnreachable : BackersEnv :=
  { envCreds := GitHubCredentials.blank
    packageDataResp := Except.error "unreachable"
    fundingResp := Except.error "unreachable"
    contributorsResp := Except.error "unreachable"
    profileRest := fun _ => Except.error "unreachable"
    userProfile := fun _ => Except.error "unreachable"
    orgProfile := fun _ => Except.error "unreachable"
    thanksdevMonthly := Except.error "unreachable"
    thanksdevYearly := Except.error "unreachable"
    opencollectiveResp := Except.error "unreachable"
    githubSponsorsPages := []
    urlOk := fun _ => false
    lastMonth := 0 }

/-- A ThanksDev environment answering the given windows. -/
def thanksdevEnv (monthly yearly : ThanksDevResponse) : BackersEnv :=
  { envUnreachable with
    thanksdevMonthly := Except.ok monthly
    thanksdevYearly := Except.ok yearly }

/-- A ThanksDev response holding exactly one donor record. -/
def oneDonorResponse (cents : Nat) : ThanksDevResponse :=
  { donors := [{ platform := "gh", username := "user", cents := cents }], dependers := [] }

/-- A baseline environment: every adapter endpoint fails, the package and
funding fetches fall back, and every URL probe succeeds. -/
def envBase : BackersEnv :=
  { envCreds := GitHubCredentials.blank
    packageDataResp := Except.error "offlineenv"
    fundingResp := Except.ok FundingData.blank
    contributorsResp := Except.error "no contributors"
    profileRest := fun _ => Except.error "no rest"
    userProfile := fun _ => Except.error "no user"
    orgProfile := fun _ => Except.error "no org"
    thanksdevMonthly := Except.error "no td"
    thanksdevYearly := Except.error "no td"
    opencollectiveResp := Except.error "no oc"
    githubSponsorsPages := []
    urlOk := fun _ => true
    lastMonth := 0 }

/-- The offline manifest scenario of the specification: author Alice with
an email, an empty sponsors field, offline mode enabled. -/
def optsC3 : BackersQueryOptions :=
  { BackersQueryOptions.blank with
    packageData := OptPkg.data { PackageData.blank with
      author := some (PersonEntry.str "Alice <a@x.com>"), sponsors := [] }
    offline := some true
    credentials := some GitHubCredentials.blank }

/-- An offline run whose manifest names Alice as the author and Alice and
Bob in the authors list, against a repository slug. -/
def optsC4 : BackersQueryOptions :=
  { BackersQueryOptions.blank with
    githubSlug := OptStr.str "theorg/therepo"
    packageData := OptPkg.data { PackageData.blank with
      author := some (PersonEntry.str "Alice <a@x.com>")
      authors := [PersonEntry.str "Alice <a@x.com>", PersonEntry.str "Bob <b@x.com>"] }
    offline := some true
    credentials := some GitHubCredentials.blank }

/-- An online run with only the ThanksDev adapter enabled. -/
def optsC2 : BackersQueryOptions :=
  { BackersQueryOptions.blank with
    githubSlug := OptStr.str "theorg/therepo"
    packageData := OptPkg.data PackageData.blank
    thanksdevGithubUsername := OptStr.str "tduser"
    opencollectiveUsername := OptStr.bool false
    githubSponsorsUsername := OptStr.bool false
    offline := some false
    credentials := some GitHubCredentials.blank }

/-- A ThanksDev environment holding one donor active in the thirty-day
window only: a sponsor that is not a donor. -/
def envC2 : BackersEnv :=
  { envBase with
    thanksdevMonthly := Except.ok
      { donors := [{ platform := "gh", username := "alice", cents := 150 }], dependers := [] }
    thanksdevYearly := Except.ok { donors := [], dependers := [] } }

/-- An offline run whose manifest populates all five plural person
fields with distinct people. -/
def optsC2b : BackersQueryOptions :=
  { BackersQueryOptions.blank with
    githubSlug := OptStr.str "theorg/therepo"
    packageData := OptPkg.data { PackageData.blank with
      maintainers := [PersonEntry.str "Mia <m@x.com>"]
      contributors := [PersonEntry.str "Con <c@x.com>"]
      funders := [PersonEntry.str "Fay <f@x.com>"]
      sponsors := [PersonEntry.str "Sam <s@x.com>"]
      donors := [PersonEntry.str "Don <d@x.com>"] }
    offline := some true
    credentials := some GitHubCredentials.blank }

/-- An online run with the ThanksDev and OpenCollective adapters enabled
and the GitHub Sponsors adapter disabled. -/
def optsC1 : BackersQueryOptions :=
  { BackersQueryOptions.blank with
    githubSlug := OptStr.str "theorg/therepo"
    packageData := OptPkg.data PackageData.blank
    thanksdevGithubUsername := OptStr.str "tduser"
    opencollectiveUsername := OptStr.str "ocuser"
    githubSponsorsUsername := OptStr.bool false
    offline := some false
    credentials := some GitHubCredentials.blank }

/-- One OpenCollective member with a recent transaction and a lifetime
total, and no GitHub URL to repair. -/
def mOC : OpenCollectiveMember :=
  { role := "BACKER", totalAmountDonated := 10, lastTransactionAt := 5
    lastTransactionAmount := 5, profile := "https://opencollective.com/aliceoc"
    name := "Alice OC", description := none, github := "", twitter := "", website := ""
    email := "" }

/-- The partial-failure environment: ThanksDev fails, OpenCollective
answers one member. -/
def envC1err : BackersEnv :=
  { envBase with
    thanksdevMonthly := Except.error "boom"
    thanksdevYearly := Except.error "boom"
    opencollectiveResp := Except.ok [mOC] }

/-- The same environment with ThanksDev succeeding emptily instead. -/
def envC1ok : BackersEnv :=
  { envC1err with
    thanksdevMonthly := Except.ok { donors := [], dependers := [] }
    thanksdevYearly := Except.ok { donors := [], dependers := [] } }

/-- An authenticated online run whose manifest lists a donor known only by
a hosting username, so that the enrichment step must fetch a profile that
the environment cannot deliver. -/
def optsErr : BackersQueryOptions :=
  { BackersQueryOptions.blank with
    githubSlug := OptStr.str "theorg/therepo"
    packageData := OptPkg.data { PackageData.blank with
      donors := [PersonEntry.person
        { name := none, email := none, username := some "duser", web := none }] }
    opencollectiveUsername := OptStr.bool false
    githubSponsorsUsername := OptStr.bool false
    credentials := some { GitHubCredentials.blank with GITHUB_TOKEN := "tok" } }

/-- A credentials object whose client identifier recurs inside the
replacement literal. -/
def credsDACT : GitHubCredentials :=
  { GitHubCredentials.blank with GITHUB_CLIENT_ID := "DACT" }

/-- The redaction scan as a structurally recursive function of a fuel
bound, so that closed scans evaluate inside the kernel. -/
def redactScanGo : Nat → List Char → List Char
  | 0, l => l
  | _ + 1, [] => []
  | n + 1, c :: t =>
    match redactMatchAt (c :: t) with
    | some (repl, rest) => repl ++ redactScanGo n rest
    | none => c :: redactScanGo n t

/-- The literal replacement loop as a structurally recursive function of a
fuel bound, so that closed replacements evaluate inside the kernel. -/
def replaceAllGo (pat repl : List Char) : Nat → List Char → List Char
  | 0, l => l
  | _ + 1, [] => []
  | n + 1, c :: t =>
    if pat.isPrefixOf (c :: t) && !pat.isEmpty then
      repl ++ replaceAllGo pat repl n ((c :: t).drop pat.length)
    else
      c :: replaceAllGo pat repl n t

-- ====================================================================
-- Supporting lemmas
-- ====================================================================

instance exceptDecEq {ε α : Type} [DecidableEq ε] [DecidableEq α] : DecidableEq (Except ε α)
  | Except.ok x, Except.ok y =>
    if h : x = y then Decidable.isTrue (congrArg Except.ok h)
    else Decidable.isFalse fun he => h (Except.ok.inj he)
  | Except.error x, Except.error y =>
    if h : x = y then Decidable.isTrue (congrArg Except.error h)
    else Decidable.isFalse fun he => h (Except.error.inj he)
  | Except.ok _, Except.error _ => Decidable.isFalse fun he => Except.noConfusion he
  | Except.error _, Except.ok _ => Decidable.isFalse fun he => Except.noConfusion he

theorem jsOr_ne_empty_iff (a b : String) : jsOr a b ≠ "" ↔ (a ≠ "" ∨ b ≠ "") := by
  unfold jsOr
  by_cases h : a = ""
  · simp [h]
  · simp [h]

-- ====================================================================
-- Claim theorems
-- ====================================================================

/-- Claim C8 (confirmed): for every credentials object, hasCredentials is
true exactly when an access token is present or both a client id and a
client secret are present, and on every other shape getAuthHeader and
getSearchParams fail with the INVALID_GITHUB_AUTH error instead of
answering a value. -/
theorem claim_c8_credential_validation (c : GitHubCredentials) :
    (hasCredentials c = true ↔
      ((c.GITHUB_ACCESS_TOKEN ≠ "" ∨ c.GITHUB_TOKEN ≠ "") ∨
        (c.GITHUB_CLIENT_ID ≠ "" ∧ c.GITHUB_CLIENT_SECRET ≠ ""))) ∧
    (hasCredentials c = false →
      getAuthHeader c = Except.error "INVALID_GITHUB_AUTH" ∧
      ∀ params, getSearchParams c params = Except.error "INVALID_GITHUB_AUTH") := by
  constructor
  · unfold hasCredentials getAccessToken
    rw [Bool.or_eq_true, Bool.and_eq_true]
    simp only [decide_eq_true_eq]
    rw [jsOr_ne_empty_iff]
  · intro h
    have hval : validateCredentials c = Except.error "INVALID_GITHUB_AUTH" := by
      unfold validateCredentials
      rw [h]
      simp
    constructor
    · unfold getAuthHeader
      rw [hval]
      rfl
    · intro params
      unfold getSearchParams
      rw [hval]
      rfl

/-- Witness for claim C8: a client id without a client secret is rejected
by the header and parameter builders. -/
theorem claim_c8_credential_validation_witness :
    hasCredentials { GitHubCredentials.blank with GITHUB_CLIENT_ID := "gci" } = false ∧
    getAuthHeader { GitHubCredentials.blank with GITHUB_CLIENT_ID := "gci" }
      = Except.error "INVALID_GITHUB_AUTH" ∧
    getSearchParams { GitHubCredentials.blank with GITHUB_CLIENT_ID := "gci" } []
      = Except.error "INVALID_GITHUB_AUTH" := by
  refine ⟨by decide, ?_, ?_⟩
  · exact ((claim_c8_credential_validation _).2 (by decide)).1
  · exact ((claim_c8_credential_validation _).2 (by decide)).2 []

/-- Claim C7 (code bug): the repository's own slug test fixtures expect
every listed clone-URL form to extract bevry/github-api and the foreign
hosts to fail, but the implementations disagree on several fixtures.
getGitHubSlugFromUrl leaves the explicit github: shorthand and the foreign
hosts untouched instead of failing, and keeps the .git#commit-ish tail;
getGitHubSlugFromPackageData rejects the ssh and git+https forms its
fixtures expect to succeed, while handling the plain, shorthand, git-at
and https forms. -/
theorem claim_c7_slug_extraction :
    getGitHubSlugFromUrl "bevry/github-api" = "bevry/github-api" ∧
    getGitHubSlugFromUrl "git@github.com:bevry/github-api.git" = "bevry/github-api" ∧
    getGitHubSlugFromUrl "https://github.com/bevry/github-api" = "bevry/github-api" ∧
    getGitHubSlugFromUrl "https://github.com/bevry/github-api.git" = "bevry/github-api" ∧
    getGitHubSlugFromUrl "ssh://github.com/bevry/github-api.git" = "bevry/github-api" ∧
    getGitHubSlugFromUrl "github:bevry/github-api" = "github:bevry/github-api" ∧
    getGitHubSlugFromUrl "git+https://github.com/bevry/github-api.git#commit-ish"
      = "bevry/github-api.git#commit-ish" ∧
    getGitHubSlugFromUrl "gist:11081aaa281" = "gist:11081aaa281" ∧
    getGitHubSlugFromUrl "bitbucket:bb/repo" = "bitbucket:bb/repo" ∧
    getGitHubSlugFromUrl "gitlab:gl/repo" = "gitlab:gl/repo" ∧
    getGitHubSlugFromPackageData
        { PackageData.blank with repository := RepoField.str "github:bevry/github-api" }
      = Except.ok "bevry/github-api" ∧
    getGitHubSlugFromPackageData
        { PackageData.blank with repository := RepoField.str "ssh://github.com/bevry/github-api.git" }
      = Except.error "PACKAGE_DATA_NOT_CONFIGURED_FOR_GITHUB_REPOSITORY" ∧
    getGitHubSlugFromPackageData
        { PackageData.blank with
          repository := RepoField.str "git+https://github.com/bevry/github-api.git#commit-ish" }
      = Except.error "PACKAGE_DATA_NOT_CONFIGURED_FOR_GITHUB_REPOSITORY" ∧
    getGitHubSlugFromPackageData
        { PackageData.blank with repository := RepoField.str "gist:11081aaa281" }
      = Except.error "PACKAGE_DATA_NOT_CONFIGURED_FOR_GITHUB_REPOSITORY" ∧
    getGitHubSlugFromPackageData
        { PackageData.blank with repository := RepoField.str "bitbucket:bb/repo" }
      = Except.error "PACKAGE_DATA_NOT_CONFIGURED_FOR_GITHUB_REPOSITORY" ∧
    getGitHubSlugFromPackageData
        { PackageData.blank with repository := RepoField.str "gitlab:gl/repo" }
      = Except.error "PACKAGE_DATA_NOT_CONFIGURED_FOR_GITHUB_REPOSITORY" := by
  decide

/-- Claim C6, counterexample: the same fifty-cent donor record is included
in the donor result when no threshold option is supplied, and excluded
when the threshold one hundred is supplied - so the adapter applies no
default threshold of one hundred. -/
theorem claim_c6_counterexample :
    (getBackersFromThanksDevM "gh" "user" BackersQueryOptions.blank
        (thanksdevEnv (oneDonorResponse 50) (oneDonorResponse 50)) Registry.empty).res
      = Except.ok ([0], [0]) ∧
    (getBackersFromThanksDevM "gh" "user"
        { BackersQueryOptions.blank with
          sponsorCentsThreshold := some 100, donorCentsThreshold := some 100 }
        (thanksdevEnv (oneDonorResponse 50) (oneDonorResponse 50)) Registry.empty).res
      = Except.ok ([], []) := by
  decide

/-- Claim C6 as amended (the zero-amount exclusion and the threshold
filtering hold as claimed; with no threshold supplied the adapter filters
only zero-amount records - the one-hundred-cent default lives in the
command line, not in the adapter): membership in either ThanksDev filter
requires a nonzero amount; with a truthy threshold membership is exactly
being at or above it; with no threshold membership is exactly having a
nonzero amount; and on the adapter itself a fifty-cent record is excluded
and a hundred-and-fifty-cent record included under threshold one
hundred. -/
theorem claim_c6_thanksdev_filters :
    (∀ thr ds (d : ThanksDevDonor), d ∈ thanksdevSponsorFilter thr ds → d.cents ≠ 0) ∧
    (∀ thr ds (d : ThanksDevDonor), d ∈ thanksdevDonorFilter thr ds → d.cents ≠ 0) ∧
    (∀ ds (d : ThanksDevDonor),
      d ∈ thanksdevDonorFilter (some 100) ds ↔ d ∈ ds ∧ d.cents ≥ 100) ∧
    (∀ ds (d : ThanksDevDonor),
      d ∈ thanksdevDonorFilter none ds ↔ d ∈ ds ∧ d.cents ≠ 0) ∧
    (getBackersFromThanksDevM "gh" "user"
        { BackersQueryOptions.blank with donorCentsThreshold := some 100 }
        (thanksdevEnv { donors := [], dependers := [] } (oneDonorResponse 50))
        Registry.empty).res
      = Except.ok ([], []) ∧
    (getBackersFromThanksDevM "gh" "user"
        { BackersQueryOptions.blank with donorCentsThreshold := some 100 }
        (thanksdevEnv { donors := [], dependers := [] } (oneDonorResponse 150))
        Registry.empty).res
      = Except.ok ([], [0]) := by
  refine ⟨?_, ?_, ?_, ?_, by decide, by decide⟩
  · intro thr ds d hd
    have := List.of_mem_filter hd
    simp only [Bool.and_eq_true, decide_eq_true_eq] at this
    exact this.1
  · intro thr ds d hd
    have := List.of_mem_filter hd
    simp only [Bool.and_eq_true, decide_eq_true_eq] at this
    exact this.1
  · intro ds d
    unfold thanksdevDonorFilter
    rw [List.mem_filter]
    simp only [Bool.and_eq_true, decide_eq_true_eq, Bool.or_eq_true, Bool.not_eq_true]
    constructor
    · rintro ⟨hm, hz, hthr⟩
      refine ⟨hm, ?_⟩
      rcases hthr with h | h
      · simp [optNatTruthy] at h
      · simpa using h
    · rintro ⟨hm, hc⟩
      exact ⟨hm, by omega, Or.inr (by simpa using hc)⟩
  · intro ds d
    unfold thanksdevDonorFilter
    rw [List.mem_filter]
    simp only [Bool.and_eq_true, decide_eq_true_eq, Bool.or_eq_true, Bool.not_eq_true]
    constructor
    · rintro ⟨hm, hz, _⟩
      exact ⟨hm, hz⟩
    · rintro ⟨hm, hc⟩
      exact ⟨hm, hc, Or.inl (by simp [optNatTruthy])⟩

/-- Witness for claim C6: the filter facts instantiated on a concrete
record list. -/
theorem claim_c6_thanksdev_filters_witness :
    (⟨"gh", "user", 150⟩ : ThanksDevDonor) ∈
        thanksdevDonorFilter (some 100) [⟨"gh", "user", 150⟩] ∧
    (⟨"gh", "user", 150⟩ : ThanksDevDonor).cents ≠ 0 := by
  constructor
  · exact (claim_c6_thanksdev_filters.2.2.1 [⟨"gh", "user", 150⟩] ⟨"gh", "user", 150⟩).2
      ⟨by decide, by decide⟩
  · exact claim_c6_thanksdev_filters.2.1 (some 100) [⟨"gh", "user", 150⟩] _
      ((claim_c6_thanksdev_filters.2.2.1 _ _).2 ⟨by decide, by decide⟩)

/-- Claim C10 (confirmed): queryREST fills its caller's options object in
place - whenever any of page, pages or size is set, the missing ones are
filled with the defaults page one, pages zero and size one hundred, and a
promise pool is always installed - so a caller sharing one options object
observes pagination settings it never set; the GitHub Sponsors adapter
reads its page size with a local fallback instead of setting the size
default on the shared object. -/
theorem claim_c10_options_mutation (o : QueryPagingOptions) :
    ((o.page ≠ none ∨ o.pages ≠ none ∨ o.size ≠ none) →
      queryRESTFillOptions o =
        { page := some (o.page.getD 1), pages := some (o.pages.getD 0)
          size := some (o.size.getD 100), poolInstalled := true }) ∧
    (queryRESTFillOptions o).poolInstalled = true ∧
    (o.size = none → githubSponsorsFirstFilter o = 100) := by
  refine ⟨?_, ?_, ?_⟩
  · intro h
    unfold queryRESTFillOptions
    rw [if_pos]
    simp only [Bool.or_eq_true, decide_eq_true_eq]
    tauto
  · unfold queryRESTFillOptions
    by_cases h : (o.page ≠ none || o.pages ≠ none || o.size ≠ none : Bool) = true
    · rw [if_pos h]
    · rw [if_neg h]
  · intro h
    unfold githubSponsorsFirstFilter
    rw [h]

/-- Witness for claim C10: an options object carrying only a size gets
page one and pages zero filled in, and the pool installed. -/
theorem claim_c10_options_mutation_witness :
    queryRESTFillOptions { page := none, pages := none, size := some 2, poolInstalled := false }
      = { page := some 1, pages := some 0, size := some 2, poolInstalled := true } ∧
    githubSponsorsFirstFilter
        { page := none, pages := none, size := none, poolInstalled := false } = 100 := by
  constructor
  · exact (claim_c10_options_mutation _).1 (by simp)
  · exact (claim_c10_options_mutation _).2.2 rfl

/-- Pagination completeness: against an uncapped source (pages zero) with a
positive page size, the paging recursion started at any one-based page
returns exactly the items from that page's window onward, in order.  Fuel
induction on an upper bound for the number of remaining pages. -/
theorem queryRESTPaged_fuel {α : Type} (items : List α) (size : Nat) (hs : 0 < size) :
    ∀ n page, items.length + 2 - page ≤ n → 1 ≤ page →
      (queryRESTPaged items page 0 size).1 = items.drop ((page - 1) * size) := by
  intro n
  induction n with
  | zero =>
    intro page hn _
    have hbig : items.length ≤ (page - 1) * size := by
      have h1 : items.length + 1 ≤ page - 1 := by omega
      calc items.length ≤ page - 1 := by omega
        _ = (page - 1) * 1 := by ring
        _ ≤ (page - 1) * size := Nat.mul_le_mul_left _ hs
    have hdrop : items.drop ((page - 1) * size) = [] :=
      List.drop_eq_nil_of_le hbig
    have hgot : (restPage items page size).length = 0 := by
      simp [restPage, hdrop]
    rw [queryRESTPaged, dif_pos hgot, hdrop]
  | succ n ih =>
    intro page hn hp
    have hcond : ((decide ((0 : Nat) = 0) || decide (page < 0)) = true) := by simp
    by_cases h0 : (restPage items page size).length = 0
    · have hlen : items.length ≤ (page - 1) * size := by
        have := h0
        simp only [restPage, List.length_take, List.length_drop] at this
        omega
      have hdrop : items.drop ((page - 1) * size) = [] :=
        List.drop_eq_nil_of_le hlen
      rw [queryRESTPaged, dif_pos h0, hdrop]
    · by_cases hfull : (restPage items page size).length = size
      · rw [queryRESTPaged, dif_neg h0, dif_pos ⟨hfull, hcond⟩]
        have hws : (page - 1) * size + size ≤ items.length := by
          have := hfull
          simp only [restPage, List.length_take, List.length_drop] at this
          omega
        have hfuel : items.length + 2 - (page + 1) ≤ n := by
          have hle : page - 1 ≤ (page - 1) * size := Nat.le_mul_of_pos_right _ hs
          omega
        have hrec : (queryRESTPaged items (page + 1) 0 size).1
            = items.drop (page * size) := by
          have := ih (page + 1) hfuel (by omega)
          simpa using this
        have hmul : page * size = (page - 1) * size + size := by
          have hpe : page - 1 + 1 = page := by omega
          calc page * size = (page - 1 + 1) * size := by rw [hpe]
            _ = (page - 1) * size + size := by ring
        simp only
        rw [hrec, hmul, ← List.drop_drop, restPage]
        exact List.take_append_drop size (items.drop ((page - 1) * size))
      · rw [queryRESTPaged, dif_neg h0, dif_neg (fun hc => hfull hc.1)]
        have hshort : items.length - (page - 1) * size ≤ size := by
          have h2 := hfull
          simp only [restPage, List.length_take, List.length_drop] at h2
          omega
        simp only [restPage]
        rw [List.take_of_length_le (by simp; omega)]

/-- Claim C5 (confirmed): a paginated REST query with a positive page size
and no page-count cap fetches and concatenates pages in order until a
short page, returning every item of the source in order; and in
particular a query of size two against a five-item source returns all
five items as one flattened ordered sequence while issuing exactly three
page requests. -/
theorem claim_c5_pagination :
    (∀ (items : List Nat) (size : Nat), 0 < size →
        (queryRESTPaged items 1 0 size).1 = items) ∧
      queryRESTPaged [1, 2, 3, 4, 5] 1 0 2 = ([1, 2, 3, 4, 5], 3) := by
  constructor
  · intro items size hs
    have := queryRESTPaged_fuel items size hs (items.length + 1) 1 (by omega) (by omega)
    simpa using this
  · simp [queryRESTPaged, restPage]

/-- Witness for claim C5 at a concrete input: size three against a
seven-item source returns all seven items. -/
theorem claim_c5_pagination_witness :
    (queryRESTPaged [1, 2, 3, 4, 5, 6, 7] 1 0 3).1 = [1, 2, 3, 4, 5, 6, 7] :=
  claim_c5_pagination.1 [1, 2, 3, 4, 5, 6, 7] 3 (by decide)

set_option maxHeartbeats 1000000 in
/-- Claim C3 as amended: an offline resolution of a manifest whose author
field is Alice with an email and whose sponsors field is empty answers,
for every environment, the entity named Alice with the email in the
singular author category - not in the authors list, which is empty like
every other category - and issues no network request of any kind. -/
theorem claim_c3_offline_author (env : BackersEnv) :
    (getBackers optsC3 env).author.map Fellow.name = [some "Alice"] ∧
    (getBackers optsC3 env).author.map Fellow.emails = [["a@x.com"]] ∧
    (getBackers optsC3 env).authors = [] ∧
    (getBackers optsC3 env).maintainers = [] ∧
    (getBackers optsC3 env).contributors = [] ∧
    (getBackers optsC3 env).funders = [] ∧
    (getBackers optsC3 env).sponsors = [] ∧
    (getBackers optsC3 env).donors = [] ∧
    getBackersCalls optsC3 env = 0 := by
  have h : runGetBackers optsC3 env = runGetBackers optsC3 envBase := rfl
  unfold getBackers getBackersCalls
  rw [h]
  decide

/-- Claim C3, counterexample to the original wording: the returned authors
list of the offline Alice scenario is empty - the entity named Alice is
returned in the singular author category instead. -/
theorem claim_c3_counterexample :
    (getBackers optsC3 envBase).authors = [] ∧
    (getBackers optsC3 envBase).author.map Fellow.name = [some "Alice"] := by
  decide

/-- Claim C4 as amended: the final pipeline step first re-attaches every
current category member to the repository slug's association sets, then
answers the six plural categories by reading the registry's per-repository
per-role query back from the re-attached registry - but the singular
author category from the locally-accumulated list, not from a registry
query.  Concretely, in an offline run whose manifest names Alice as the
author and Alice and Bob as authors, the returned authors list equals the
registry's author-role query for the slug (both entities), while the
returned author list does not. -/
theorem claim_c4_registry_readback (slug : String) (r : BackersIds) (R : Registry) :
    ((finalizeBackers slug r R).reg = attachBackersToGitHubSlug r slug R ∧
      (finalizeBackers slug r R).res = Except.ok
        { author := r.author.map fun i => ((attachBackersToGitHubSlug r slug R).recAt i).fellow
          authors := (attachBackersToGitHubSlug r slug R).ofRepository Role.author slug
          maintainers := (attachBackersToGitHubSlug r slug R).ofRepository Role.maintainer slug
          contributors := (attachBackersToGitHubSlug r slug R).ofRepository Role.contributor slug
          funders := (attachBackersToGitHubSlug r slug R).ofRepository Role.funder slug
          sponsors := (attachBackersToGitHubSlug r slug R).ofRepository Role.sponsor slug
          donors := (attachBackersToGitHubSlug r slug R).ofRepository Role.donor slug }) ∧
    (getBackers optsC4 envBase).authors
      = (runGetBackers optsC4 envBase).reg.ofRepository Role.author "theorg/therepo" := by
  refine ⟨⟨rfl, rfl⟩, by decide⟩

/-- Claim C4, counterexample to the original wording: in the offline
Alice-and-Bob scenario the registry's author-role query for the slug
answers both entities, while the returned singular author category holds
only the locally-accumulated Alice - the author category is not read back
from the registry. -/
theorem claim_c4_counterexample :
    ((runGetBackers optsC4 envBase).reg.ofRepository Role.author "theorg/therepo").map Fellow.name
      = [some "Alice", some "Bob"] ∧
    (getBackers optsC4 envBase).author.map Fellow.name = [some "Alice"] ∧
    (getBackers optsC4 envBase).author
      ≠ (runGetBackers optsC4 envBase).reg.ofRepository Role.author "theorg/therepo" := by
  decide

set_option maxHeartbeats 1000000 in
set_option maxRecDepth 8192 in
/-- Claim C1 (confirmed): a failing source adapter is caught inside the
orchestrator and contributes nothing - a run whose ThanksDev endpoints
fail returns exactly what the same run returns when they succeed emptily,
for every environment and every pair of error messages; concretely, with
ThanksDev failing and OpenCollective answering one member, that member is
still returned among the sponsors and the donors; and any run whose
pipeline ends in an uncaught error is degraded by the outermost catch to
the all-empty backers result. -/
theorem claim_c1_error_containment :
    (∀ (env : BackersEnv) (e1 e2 : String),
      getBackers optsC1
          { env with thanksdevMonthly := Except.error e1, thanksdevYearly := Except.error e2 }
        = getBackers optsC1
          { env with thanksdevMonthly := Except.ok { donors := [], dependers := [] }
                     thanksdevYearly := Except.ok { donors := [], dependers := [] } }) ∧
    ((getBackers optsC1 envC1err).sponsors.map Fellow.name = [some "Alice OC"] ∧
      (getBackers optsC1 envC1err).donors.map Fellow.name = [some "Alice OC"]) ∧
    (∀ (opts : BackersQueryOptions) (env : BackersEnv) (e : String),
      (runGetBackers opts env).res = Except.error e → getBackers opts env = emptyBackers) := by
  refine ⟨fun env e1 e2 => rfl, by decide, fun opts env e h => ?_⟩
  unfold getBackers
  rw [h]

set_option maxRecDepth 8192 in
set_option maxHeartbeats 1000000 in
/-- Witness for claim C1 at a concrete input: the authenticated run whose
manifest donor forces a profile fetch that the environment cannot deliver
ends in that uncaught chained error, and the outermost catch therefore
answers the all-empty result. -/
theorem claim_c1_error_containment_witness :
    getBackers optsErr envBase = emptyBackers :=
  claim_c1_error_containment.2.2 optsErr envBase
    "Failed to fetch the GitHub Profile for the username: duser: Fetching GitHub Organization failed for username: duser: no org: Fetching GitHub User failed for username: duser: no user"
    (by decide)

/-- Running a bound computation of the resolution monad: the recorded
failure semantics of the Monad instance, stated as an equation. -/
theorem resolvem_run_bind {α β : Type} (x : ResolveM α) (f : α → ResolveM β) (reg : Registry) :
    (x >>= f) reg =
      (match (x reg).res with
        | Except.error e => { res := Except.error e, reg := (x reg).reg, calls := (x reg).calls }
        | Except.ok a =>
          { res := (f a (x reg).reg).res, reg := (f a (x reg).reg).reg
            calls := (x reg).calls + (f a (x reg).reg).calls }) := rfl

/-- Running a pure computation of the resolution monad. -/
theorem resolvem_run_pure {α : Type} (a : α) (reg : Registry) :
    (pure a : ResolveM α) reg = { res := Except.ok a, reg := reg, calls := 0 } := rfl

/-- Claim C2 as amended: the GitHub Sponsors adapter classifies every
entity it returns as both a sponsor and a donor (its two result lists are
always equal), and the manifest seeding builds the donors category from
the funders, sponsors and donors entries and the contributors category
from the maintainers and contributors entries - concretely, an offline
run whose manifest populates all five plural person fields satisfies the
inclusions: funders and sponsors are donors, maintainers are
contributors.  The inclusions are not maintained across every adapter,
which is the recorded counterexample. -/
theorem claim_c2_donor_superset :
    (∀ (username : String) (opts : BackersQueryOptions) (env : BackersEnv)
        (R : Registry) (p : List Nat × List Nat),
      (getBackersFromGitHubSponsorsM username opts env R).res = Except.ok p → p.1 = p.2) ∧
    (∀ f ∈ (getBackers optsC2b envBase).funders ++ (getBackers optsC2b envBase).sponsors,
      f ∈ (getBackers optsC2b envBase).donors) ∧
    (∀ f ∈ (getBackers optsC2b envBase).maintainers,
      f ∈ (getBackers optsC2b envBase).contributors) := by
  refine ⟨fun username opts env R p h => ?_, by decide, by decide⟩
  unfold getBackersFromGitHubSponsorsM ResolveM.mapErr at h
  rcases hL : (githubSponsorsLoop username env.githubSponsorsPages R).res with e | profiles
  · rw [resolvem_run_bind] at h
    rw [hL] at h
    simp at h
  · rw [resolvem_run_bind] at h
    rw [hL] at h
    simp only [resolvem_run_bind, ResolveM.addFragments, resolvem_run_pure] at h
    simp at h
    rw [← h]

/-- Witness for claim C2 at a concrete input: a GitHub Sponsors run
against an exhausted page stream answers the empty pair, whose sponsor
and donor lists the theorem equates. -/
theorem claim_c2_donor_superset_witness :
    (getBackersFromGitHubSponsorsM "u" BackersQueryOptions.blank envBase Registry.empty).res
        = Except.ok ([], []) ∧
      (([] : List Nat), ([] : List Nat)).1 = (([] : List Nat), ([] : List Nat)).2 :=
  ⟨by decide,
    claim_c2_donor_superset.1 "u" BackersQueryOptions.blank envBase Registry.empty ([], [])
      (by decide)⟩

/-- Claim C2, counterexample to the original wording: a ThanksDev donor
active only in the thirty-day window is returned among the sponsors but
not among the donors, so the sponsors list is not contained in the donors
list. -/
theorem claim_c2_counterexample :
    (getBackers optsC2 envC2).sponsors.map Fellow.urls = [["https://thanks.dev/d/gh/alice"]] ∧
    (getBackers optsC2 envC2).donors = [] ∧
    ¬ (∀ f ∈ (getBackers optsC2 envC2).sponsors, f ∈ (getBackers optsC2 envC2).donors) := by
  decide


theorem redactScan_nil : redactScan [] = [] := by
  rw [redactScan]

theorem redactScan_cons_none {c : Char} {t : List Char}
    (h : redactMatchAt (c :: t) = none) : redactScan (c :: t) = c :: redactScan t := by
  rw [redactScan]
  split <;> simp_all

theorem redactScan_cons_some {c : Char} {t repl rest : List Char}
    (h : redactMatchAt (c :: t) = some (repl, rest)) :
    redactScan (c :: t) = repl ++ redactScan rest := by
  rw [redactScan]
  split <;> simp_all

theorem redactScan_eq_go : ∀ (n : Nat) (l : List Char), l.length < n →
    redactScan l = redactScanGo n l := by
  intro n
  induction n with
  | zero => intro l h; omega
  | succ n ih =>
    intro l h
    match l with
    | [] => rw [redactScan_nil]; rfl
    | c :: t =>
      rcases hm : redactMatchAt (c :: t) with _ | ⟨repl, rest⟩
      · rw [redactScan_cons_none hm]
        show _ = (match redactMatchAt (c :: t) with
          | some (repl, rest) => repl ++ redactScanGo n rest
          | none => c :: redactScanGo n t)
        rw [hm]
        rw [ih t (by simp at h; omega)]
      · rw [redactScan_cons_some hm]
        show _ = (match redactMatchAt (c :: t) with
          | some (repl, rest) => repl ++ redactScanGo n rest
          | none => c :: redactScanGo n t)
        rw [hm]
        have hs : rest.length < t.length + 1 := by simpa using redactMatchAt_shrink hm
        rw [ih rest (by simp at h; omega)]

theorem replaceAll_eq_go : ∀ (n : Nat) (pat repl l : List Char), l.length < n →
    replaceAllStr pat repl l = replaceAllGo pat repl n l := by
  intro n
  induction n with
  | zero => intro pat repl l h; omega
  | succ n ih =>
    intro pat repl l h
    match l with
    | [] => rw [replaceAllStr]; rfl
    | c :: t =>
      rw [replaceAllStr]
      show _ = (if pat.isPrefixOf (c :: t) && !pat.isEmpty then
          repl ++ replaceAllGo pat repl n ((c :: t).drop pat.length)
        else c :: replaceAllGo pat repl n t)
      by_cases hc : (pat.isPrefixOf (c :: t) && !pat.isEmpty) = true
      · rw [if_pos hc, if_pos hc]
        have hpne : pat ≠ [] := by
          rcases pat with _ | _
          · simp at hc
          · simp
        rw [ih pat repl ((c :: t).drop pat.length) (by
          simp only [List.length_drop, List.length_cons]
          rcases pat with _ | ⟨p, ps⟩
          · simp at hpne
          · simp only [List.length_cons] at *
            simp at h
            omega)]
      · rw [if_neg hc, if_neg hc]
        rw [ih pat repl t (by simp at h; omega)]

-- quick sanity: fixture evaluation through the twin
example : redactSearchParams "url?client_id=9d5&client_secret=fbd58"
    = "url?client_id=REDACTED&client_secret=REDACTED" := by
  unfold redactSearchParams
  rw [redactScan_eq_go 100 _ (by decide)]
  decide

theorem isPrefixOf_sep_eq : ∀ (kw X A B : List Char), '=' ∉ kw →
    kw.isPrefixOf (X ++ '=' :: A) = kw.isPrefixOf (X ++ '=' :: B) := by
  intro kw
  induction kw with
  | nil => intro X A B _; simp [List.isPrefixOf]
  | cons k kt ih =>
    intro X A B h
    rcases X with _ | ⟨x0, Xt⟩
    · have hk : (k == '=') = false := by
        simp only [beq_eq_false_iff_ne, ne_eq]
        intro he; exact h (by simp [he])
      simp [List.isPrefixOf, hk]
    · simp only [List.cons_append, List.isPrefixOf, List.append_eq]
      rw [ih Xt A B (fun hm => h (List.mem_cons_of_mem _ hm))]

theorem isPrefixOf_sep_le : ∀ (kw X A : List Char), '=' ∉ kw →
    kw.isPrefixOf (X ++ '=' :: A) = true → kw.length ≤ X.length := by
  intro kw
  induction kw with
  | nil => intro X A _ _; simp
  | cons k kt ih =>
    intro X A h hp
    rcases X with _ | ⟨x0, Xt⟩
    · have hk : k ≠ '=' := by intro he; exact h (by simp [he])
      simp [List.isPrefixOf, hk] at hp
    · simp only [List.cons_append, List.isPrefixOf, Bool.and_eq_true, beq_iff_eq] at hp
      have := ih Xt A (fun hm => h (List.mem_cons_of_mem _ hm)) hp.2
      simp only [List.length_cons]
      omega

theorem charLower_eq_sep : charLower '=' = '=' := rfl

theorem keywordPrefix_sep_eq (kw x a b : List Char) (h : '=' ∉ kw) :
    keywordPrefix kw (x ++ '=' :: a) = keywordPrefix kw (x ++ '=' :: b) := by
  unfold keywordPrefix
  rw [List.map_append, List.map_cons, List.map_append, List.map_cons, charLower_eq_sep]
  exact isPrefixOf_sep_eq kw (x.map charLower) (a.map charLower) (b.map charLower) h

theorem redactKeywords_no_sep : ∀ kw ∈ redactKeywords, '=' ∉ kw := by decide

theorem redactKeywords_ne_nil : ∀ kw ∈ redactKeywords, kw ≠ [] := by decide

theorem find?_keywords_congr {α : Type} (p q : α → Bool) :
    ∀ (l : List α), (∀ kw ∈ l, p kw = q kw) → l.find? p = l.find? q := by
  intro l
  induction l with
  | nil => intro _; rfl
  | cons a t ih =>
    intro h
    rw [List.find?_cons, List.find?_cons, h a (List.mem_cons_self a t)]
    cases q a
    · exact ih fun kw hm => h kw (List.mem_cons_of_mem _ hm)
    · rfl

theorem attempt_amp (l : List Char) : redactAttempt ('&' :: l) = none := by
  unfold redactAttempt
  have hf : redactKeywords.find? (fun kw => keywordPrefix kw ('&' :: l)) = none := by
    show List.find? _ ["access_token".toList, "client_id".toList, "client_secret".toList] = none
    have hamp : charLower '&' = '&' := rfl
    rw [List.find?, List.find?, List.find?]
    simp [keywordPrefix, List.isPrefixOf, hamp]
  rw [hf]

theorem head_dropWhile_not (p : Char → Bool) :
    ∀ (l : List Char) (ch : Char), (l.dropWhile p).head? = some ch → p ch = false := by
  intro l
  induction l with
  | nil => intro ch h; simp [List.dropWhile] at h
  | cons a t ih =>
    intro ch h
    by_cases hp : p a
    · rw [List.dropWhile_cons_of_pos hp] at h
      exact ih ch h
    · rw [List.dropWhile_cons_of_neg hp] at h
      simp at h
      rw [← h]
      exact Bool.of_not_eq_true hp

theorem drop_append_le {n : Nat} (x r : List Char) (h : n ≤ x.length) :
    (x ++ r).drop n = x.drop n ++ r := by
  rw [List.drop_append_eq_append_drop, Nat.sub_eq_zero_of_le h, List.drop]

theorem attempt_structure {body repl rest : List Char}
    (h : redactAttempt body = some (repl, rest)) :
    ∃ pre v, body = pre ++ '=' :: (v ++ rest) ∧ repl = pre ++ '=' :: "REDACTED".toList ∧
      v ≠ [] ∧ (∀ c ∈ v, isWordChar c = true) ∧
      (∀ ch, rest.head? = some ch → isWordChar ch = false) := by
  unfold redactAttempt at h
  rcases hf : redactKeywords.find? (fun kw => keywordPrefix kw body) with _ | kw
  · rw [hf] at h; simp at h
  · rw [hf] at h
    dsimp only at h
    rcases hd : body.drop kw.length with _ | ⟨c, rest2⟩
    · rw [hd] at h; simp at h
    · rw [hd] at h
      dsimp only at h
      by_cases hc : c = '='
      · rw [if_pos hc] at h
        by_cases hemp : (rest2.takeWhile isWordChar).isEmpty
        · rw [if_pos hemp] at h; simp at h
        · rw [if_neg hemp] at h
          simp only [Option.some.injEq, Prod.mk.injEq] at h
          obtain ⟨h1, h2⟩ := h
          subst h1
          subst h2
          refine ⟨body.take kw.length, rest2.takeWhile isWordChar, ?_, rfl, ?_, ?_, ?_⟩
          · calc body = body.take kw.length ++ body.drop kw.length :=
                  (List.take_append_drop _ _).symm
              _ = body.take kw.length ++ c :: rest2 := by rw [hd]
              _ = body.take kw.length
                  ++ '=' :: (rest2.takeWhile isWordChar ++ rest2.dropWhile isWordChar) := by
                  rw [hc, List.takeWhile_append_dropWhile]
          · intro he
            rw [he] at hemp
            simp at hemp
          · intro ch hm
            exact List.mem_takeWhile_imp hm
          · intro ch hh
            exact head_dropWhile_not isWordChar rest2 ch hh
      · rw [if_neg hc] at h; simp at h

theorem matchAt_structure {s repl rest : List Char}
    (h : redactMatchAt s = some (repl, rest)) :
    ∃ pre v, s = pre ++ '=' :: (v ++ rest) ∧ repl = pre ++ '=' :: "REDACTED".toList ∧
      v ≠ [] ∧ (∀ c ∈ v, isWordChar c = true) ∧
      (∀ ch, rest.head? = some ch → isWordChar ch = false) := by
  unfold redactMatchAt at h
  rcases s with _ | ⟨c, body⟩
  · simp at h
  · dsimp only at h
    by_cases hc : c = '&'
    · rw [if_pos hc] at h
      rcases ha : redactAttempt body with _ | ⟨repl2, rest2⟩
      · rw [ha] at h
        rw [hc] at h
        rw [attempt_amp body] at h
        simp at h
      · rw [ha] at h
        simp only [Option.some.injEq, Prod.mk.injEq] at h
        obtain ⟨h1, h2⟩ := h
        subst h1
        subst h2
        obtain ⟨pre, v, hb, hr, hv, hvw, hrw⟩ := attempt_structure ha
        refine ⟨c :: pre, v, ?_, ?_, hv, hvw, hrw⟩
        · rw [List.cons_append, ← hb]
        · rw [hr, hc, List.cons_append]
    · rw [if_neg hc] at h
      exact attempt_structure h

theorem attempt_stable (x v y w z : List Char)
    (hw : w ≠ []) (hww : ∀ c ∈ w, isWordChar c = true)
    (h : (redactAttempt (x ++ '=' :: (v ++ y))).isSome = true) :
    (redactAttempt (x ++ '=' :: (w ++ z))).isSome = true := by
  unfold redactAttempt at h ⊢
  rcases hf : redactKeywords.find? (fun kw => keywordPrefix kw (x ++ '=' :: (v ++ y))) with _ | kw
  · rw [hf] at h; simp at h
  · rw [hf] at h
    have hmem := List.mem_of_find?_eq_some hf
    have hne : '=' ∉ kw := redactKeywords_no_sep kw hmem
    have hf2 : redactKeywords.find? (fun kw => keywordPrefix kw (x ++ '=' :: (w ++ z)))
        = some kw := by
      rw [find?_keywords_congr _ _ _
        (fun kw' hm => keywordPrefix_sep_eq kw' x (w ++ z) (v ++ y) (redactKeywords_no_sep kw' hm))]
      exact hf
    rw [hf2]
    dsimp only at h ⊢
    have hkw : keywordPrefix kw (x ++ '=' :: (v ++ y)) = true := by
      have := List.find?_some hf
      simpa using this
    have hlen : kw.length ≤ x.length := by
      unfold keywordPrefix at hkw
      rw [List.map_append, List.map_cons, charLower_eq_sep] at hkw
      have := isPrefixOf_sep_le kw (x.map charLower) ((v ++ y).map charLower) hne hkw
      simpa using this
    rcases Nat.eq_or_lt_of_le hlen with hEq | hlt
    · have hd2 : (x ++ '=' :: (w ++ z)).drop kw.length = '=' :: (w ++ z) := by
        rw [hEq]; exact List.drop_left x _
      rw [hd2]
      dsimp only
      rw [if_pos rfl]
      rcases w with _ | ⟨w0, wt⟩
      · exact absurd rfl hw
      · have hw0 : isWordChar w0 = true := hww w0 (List.mem_cons_self _ _)
        rw [List.cons_append, List.takeWhile_cons_of_pos hw0]
        simp
    · have hd1 : (x ++ '=' :: (v ++ y)).drop kw.length = x.drop kw.length ++ '=' :: (v ++ y) :=
        drop_append_le x _ (le_of_lt hlt)
      have hd2 : (x ++ '=' :: (w ++ z)).drop kw.length = x.drop kw.length ++ '=' :: (w ++ z) :=
        drop_append_le x _ (le_of_lt hlt)
      rcases hxd : x.drop kw.length with _ | ⟨d, xr⟩
      · have hlx : x.length - kw.length = 0 := by
          have := congrArg List.length hxd; simpa using this
        omega
      · rw [hd1, hxd] at h
        rw [hd2, hxd]
        dsimp only [List.cons_append] at h ⊢
        by_cases hc : d = '='
        · rw [if_pos hc] at h
          rw [if_pos hc]
          rcases xr with _ | ⟨e, xr'⟩
          · rw [List.nil_append] at h
            rw [List.takeWhile_cons_of_neg (by decide : ¬ isWordChar '=' = true)] at h
            simp at h
          · by_cases he : isWordChar e = true
            · rw [List.cons_append, List.takeWhile_cons_of_pos he]
              simp
            · rw [List.cons_append, List.takeWhile_cons_of_neg he] at h
              simp at h
        · rw [if_neg hc] at h; simp at h

theorem attempt_stable_none (x v y w z : List Char)
    (hv : v ≠ []) (hvw : ∀ c ∈ v, isWordChar c = true)
    (h : redactAttempt (x ++ '=' :: (v ++ y)) = none) :
    redactAttempt (x ++ '=' :: (w ++ z)) = none := by
  rcases ha : redactAttempt (x ++ '=' :: (w ++ z)) with _ | p
  · rfl
  · have hs := attempt_stable x w z v y hv hvw (by rw [ha]; rfl)
    rw [h] at hs
    simp at hs

theorem matchAt_stable (x v y w z : List Char)
    (hv : v ≠ []) (hvw : ∀ c ∈ v, isWordChar c = true)
    (h : redactMatchAt (x ++ '=' :: (v ++ y)) = none) :
    redactMatchAt (x ++ '=' :: (w ++ z)) = none := by
  unfold redactMatchAt at h ⊢
  rcases x with _ | ⟨c, xt⟩
  · simp only [List.nil_append] at h ⊢
    rw [if_neg (by decide : ¬ ('=' = '&'))] at h ⊢
    exact attempt_stable_none [] v y w z hv hvw h
  · simp only [List.cons_append] at h ⊢
    by_cases hc : c = '&'
    · rw [if_pos hc] at h ⊢
      rcases ha1 : redactAttempt (xt ++ '=' :: (v ++ y)) with _ | q
      · rw [ha1] at h
        have ha2 : redactAttempt (xt ++ '=' :: (w ++ z)) = none :=
          attempt_stable_none xt v y w z hv hvw ha1
        rw [ha2]
        exact attempt_stable_none (c :: xt) v y w z hv hvw h
      · rw [ha1] at h
        rcases q with ⟨q1, q2⟩
        simp at h
    · rw [if_neg hc] at h ⊢
      exact attempt_stable_none (c :: xt) v y w z hv hvw h

theorem takeWhile_word_append (p l : List Char) (hall : ∀ c ∈ p, isWordChar c = true) :
    List.takeWhile isWordChar (p ++ l) = p ++ List.takeWhile isWordChar l := by
  induction p with
  | nil => simp
  | cons a t ih =>
    rw [List.cons_append, List.takeWhile_cons_of_pos (hall a (List.mem_cons_self _ _)),
      List.cons_append, ih fun c hm => hall c (List.mem_cons_of_mem _ hm)]

theorem dropWhile_word_append (p l : List Char) (hall : ∀ c ∈ p, isWordChar c = true) :
    List.dropWhile isWordChar (p ++ l) = List.dropWhile isWordChar l := by
  induction p with
  | nil => simp
  | cons a t ih =>
    rw [List.cons_append, List.dropWhile_cons_of_pos (hall a (List.mem_cons_self _ _)),
      ih fun c hm => hall c (List.mem_cons_of_mem _ hm)]

theorem takeWhile_headNonWord (u : List Char)
    (hu : ∀ ch, u.head? = some ch → isWordChar ch = false) :
    List.takeWhile isWordChar u = [] := by
  rcases u with _ | ⟨a, t⟩
  · rfl
  · rw [List.takeWhile_cons_of_neg]
    rw [hu a rfl]
    simp

theorem dropWhile_headNonWord (u : List Char)
    (hu : ∀ ch, u.head? = some ch → isWordChar ch = false) :
    List.dropWhile isWordChar u = u := by
  rcases u with _ | ⟨a, t⟩
  · rfl
  · rw [List.dropWhile_cons_of_neg]
    rw [hu a rfl]
    simp

theorem redacted_all_word : ∀ c ∈ "REDACTED".toList, isWordChar c = true := by decide

theorem attempt_rescan {body repl rest : List Char}
    (h : redactAttempt body = some (repl, rest)) (u : List Char)
    (hu : ∀ ch, u.head? = some ch → isWordChar ch = false) :
    redactAttempt (repl ++ u) = some (repl, u) := by
  unfold redactAttempt at h
  rcases hf : redactKeywords.find? (fun kw => keywordPrefix kw body) with _ | kw
  · rw [hf] at h; simp at h
  · rw [hf] at h
    dsimp only at h
    rcases hd : body.drop kw.length with _ | ⟨c, rest2⟩
    · rw [hd] at h; simp at h
    · rw [hd] at h
      dsimp only at h
      by_cases hc : c = '='
      · rw [if_pos hc] at h
        by_cases hemp : (rest2.takeWhile isWordChar).isEmpty
        · rw [if_pos hemp] at h; simp at h
        · rw [if_neg hemp] at h
          simp only [Option.some.injEq, Prod.mk.injEq] at h
          obtain ⟨h1, h2⟩ := h
          subst h1
          subst h2
          have hkw : keywordPrefix kw body = true := by
            have := List.find?_some hf
            simpa using this
          have hlen : kw.length ≤ body.length := by
            unfold keywordPrefix at hkw
            rw [List.isPrefixOf_iff_prefix] at hkw
            have := hkw.length_le
            simpa using this
          have htl : (body.take kw.length).length = kw.length := by
            rw [List.length_take]
            omega
          have hbody : body = body.take kw.length ++ '=' :: rest2 := by
            calc body = body.take kw.length ++ body.drop kw.length :=
                (List.take_append_drop _ _).symm
              _ = body.take kw.length ++ '=' :: rest2 := by rw [hd, hc]
          have hshape : (body.take kw.length ++ '=' :: "REDACTED".toList) ++ u
              = body.take kw.length ++ '=' :: ("REDACTED".toList ++ u) := by
            simp [List.append_assoc]
          rw [hshape]
          unfold redactAttempt
          set X := body.take kw.length with hX
          have hf2 : redactKeywords.find?
              (fun kw' => keywordPrefix kw' (X ++ '=' :: ("REDACTED".toList ++ u)))
              = some kw := by
            rw [find?_keywords_congr _
              (fun kw' => keywordPrefix kw' body) _
              (fun kw' hm => by
                conv_rhs => rw [hbody]
                exact keywordPrefix_sep_eq kw' X ("REDACTED".toList ++ u)
                  rest2 (redactKeywords_no_sep kw' hm))]
            exact hf
          rw [hf2]
          dsimp only
          have hdrop : (X ++ '=' :: ("REDACTED".toList ++ u)).drop kw.length
              = '=' :: ("REDACTED".toList ++ u) := by
            rw [← htl]
            exact List.drop_left _ _
          rw [hdrop]
          dsimp only
          rw [if_pos rfl]
          have htw : List.takeWhile isWordChar ("REDACTED".toList ++ u) = "REDACTED".toList := by
            rw [takeWhile_word_append _ _ redacted_all_word, takeWhile_headNonWord u hu,
              List.append_nil]
          have hdw : List.dropWhile isWordChar ("REDACTED".toList ++ u) = u := by
            rw [dropWhile_word_append _ _ redacted_all_word, dropWhile_headNonWord u hu]
          rw [htw, hdw]
          rw [if_neg (by decide : ¬ ("REDACTED".toList.isEmpty = true))]
          have htake : (X ++ '=' :: ("REDACTED".toList ++ u)).take kw.length = X := by
            rw [← htl]
            exact List.take_left _ _
          rw [htake]
      · rw [if_neg hc] at h; simp at h

theorem matchAt_rescan {s repl rest : List Char}
    (h : redactMatchAt s = some (repl, rest)) (u : List Char)
    (hu : ∀ ch, u.head? = some ch → isWordChar ch = false) :
    redactMatchAt (repl ++ u) = some (repl, u) := by
  unfold redactMatchAt at h
  rcases s with _ | ⟨c, body⟩
  · simp at h
  · dsimp only at h
    by_cases hc : c = '&'
    · rw [if_pos hc] at h
      rcases ha : redactAttempt body with _ | ⟨repl2, rest2⟩
      · rw [ha, hc, attempt_amp body] at h
        simp at h
      · rw [ha] at h
        simp only [Option.some.injEq, Prod.mk.injEq] at h
        obtain ⟨h1, h2⟩ := h
        subst h1
        subst h2
        have hra := attempt_rescan ha u hu
        unfold redactMatchAt
        rw [List.cons_append]
        dsimp only
        rw [if_pos rfl, hra]
    · rw [if_neg hc] at h
      -- repl starts with c, so the rescan goes through the plain attempt
      obtain ⟨kw, hfkw⟩ : ∃ kw, redactKeywords.find?
          (fun kw => keywordPrefix kw (c :: body)) = some kw := by
        unfold redactAttempt at h
        rcases hf : redactKeywords.find? (fun kw => keywordPrefix kw (c :: body)) with _ | kw
        · rw [hf] at h; simp at h
        · exact ⟨kw, rfl⟩
      have hkne : kw ≠ [] := redactKeywords_ne_nil kw (List.mem_of_find?_eq_some hfkw)
      have hhead : ∃ r', repl = c :: r' := by
        unfold redactAttempt at h
        rw [hfkw] at h
        dsimp only at h
        rcases hd : (c :: body).drop kw.length with _ | ⟨c2, rest2⟩
        · rw [hd] at h; simp at h
        · rw [hd] at h
          dsimp only at h
          by_cases hc2 : c2 = '='
          · rw [if_pos hc2] at h
            by_cases hemp : (rest2.takeWhile isWordChar).isEmpty
            · rw [if_pos hemp] at h; simp at h
            · rw [if_neg hemp] at h
              simp only [Option.some.injEq, Prod.mk.injEq] at h
              rcases kw with _ | ⟨k0, kt⟩
              · exact absurd rfl hkne
              · refine ⟨body.take kt.length ++ '=' :: "REDACTED".toList, ?_⟩
                rw [← h.1, List.length_cons, List.take_succ_cons, List.cons_append]
          · rw [if_neg hc2] at h; simp at h
      obtain ⟨r', hr'⟩ := hhead
      have hra := attempt_rescan h u hu
      unfold redactMatchAt
      rw [hr', List.cons_append]
      dsimp only
      rw [if_neg hc, ← List.cons_append, ← hr']
      exact hra

theorem attempt_head {c : Char} {b repl rest : List Char}
    (h : redactAttempt (c :: b) = some (repl, rest)) : ∃ r', repl = c :: r' := by
  unfold redactAttempt at h
  rcases hf : redactKeywords.find? (fun kw => keywordPrefix kw (c :: b)) with _ | kw
  · rw [hf] at h; simp at h
  · rw [hf] at h
    dsimp only at h
    have hkne : kw ≠ [] := redactKeywords_ne_nil kw (List.mem_of_find?_eq_some hf)
    rcases hd : (c :: b).drop kw.length with _ | ⟨c2, rest2⟩
    · rw [hd] at h; simp at h
    · rw [hd] at h
      dsimp only at h
      by_cases hc2 : c2 = '='
      · rw [if_pos hc2] at h
        by_cases hemp : (rest2.takeWhile isWordChar).isEmpty
        · rw [if_pos hemp] at h; simp at h
        · rw [if_neg hemp] at h
          simp only [Option.some.injEq, Prod.mk.injEq] at h
          rcases kw with _ | ⟨k0, kt⟩
          · exact absurd rfl hkne
          · refine ⟨b.take kt.length ++ '=' :: "REDACTED".toList, ?_⟩
            rw [← h.1, List.length_cons, List.take_succ_cons, List.cons_append]
      · rw [if_neg hc2] at h; simp at h

theorem matchAt_head {c : Char} {t repl rest : List Char}
    (h : redactMatchAt (c :: t) = some (repl, rest)) : ∃ r', repl = c :: r' := by
  unfold redactMatchAt at h
  dsimp only at h
  by_cases hc : c = '&'
  · rw [if_pos hc] at h
    rcases ha : redactAttempt t with _ | ⟨repl2, rest2⟩
    · rw [ha, hc, attempt_amp t] at h
      simp at h
    · rw [ha] at h
      simp only [Option.some.injEq, Prod.mk.injEq] at h
      exact ⟨repl2, by rw [← h.1, hc]⟩
  · rw [if_neg hc] at h
    exact attempt_head h

theorem redactScan_head (l : List Char) : (redactScan l).head? = l.head? := by
  rcases l with _ | ⟨c, t⟩
  · rw [redactScan_nil]
  · rcases hm : redactMatchAt (c :: t) with _ | ⟨repl, rest⟩
    · rw [redactScan_cons_none hm]
      rfl
    · rw [redactScan_cons_some hm]
      obtain ⟨r', hr'⟩ := matchAt_head hm
      rw [hr', List.cons_append]
      rfl

theorem nm_preserved : ∀ (n : Nat) (t u : List Char), t.length ≤ n →
    redactMatchAt (u ++ t) = none → redactMatchAt (u ++ redactScan t) = none := by
  intro n
  induction n with
  | zero =>
    intro t u hle h
    have ht : t = [] := List.eq_nil_of_length_eq_zero (Nat.le_zero.mp hle)
    subst ht
    rw [redactScan_nil]
    exact h
  | succ n ih =>
    intro t u hle h
    rcases t with _ | ⟨d, t'⟩
    · rw [redactScan_nil]
      exact h
    · rcases hm : redactMatchAt (d :: t') with _ | ⟨repl, rest⟩
      · rw [redactScan_cons_none hm]
        have h' : redactMatchAt ((u ++ [d]) ++ t') = none := by
          simpa [List.append_assoc] using h
        have := ih t' (u ++ [d]) (by simp at hle ⊢; omega) h'
        simpa [List.append_assoc] using this
      · rw [redactScan_cons_some hm]
        obtain ⟨pre, v, hs, hrepl, hv, hvw, -⟩ := matchAt_structure hm
        rw [hs] at h
        rw [hrepl]
        have h2 : redactMatchAt ((u ++ pre) ++ '=' :: (v ++ rest)) = none := by
          simpa [List.append_assoc] using h
        have h3 := matchAt_stable (u ++ pre) v rest "REDACTED".toList (redactScan rest)
          hv hvw h2
        simpa [List.append_assoc] using h3

theorem redactScan_idem_fuel : ∀ (n : Nat) (l : List Char), l.length ≤ n →
    redactScan (redactScan l) = redactScan l := by
  intro n
  induction n with
  | zero =>
    intro l hle
    have hl : l = [] := List.eq_nil_of_length_eq_zero (Nat.le_zero.mp hle)
    subst hl
    rw [redactScan_nil, redactScan_nil]
  | succ n ih =>
    intro l hle
    rcases l with _ | ⟨c, t⟩
    · rw [redactScan_nil, redactScan_nil]
    · rcases hm : redactMatchAt (c :: t) with _ | ⟨repl, rest⟩
      · rw [redactScan_cons_none hm]
        have h2 := nm_preserved t.length t [c] (le_refl _) (by simpa using hm)
        rw [redactScan_cons_none (by simpa using h2)]
        rw [ih t (by simp at hle; omega)]
      · rw [redactScan_cons_some hm]
        obtain ⟨pre, v, hs, hrepl, hv, hvw, hrw⟩ := matchAt_structure hm
        have hu : ∀ ch, (redactScan rest).head? = some ch → isWordChar ch = false := by
          intro ch hch
          rw [redactScan_head] at hch
          exact hrw ch hch
        have h2 := matchAt_rescan hm (redactScan rest) hu
        obtain ⟨r', hr'⟩ := matchAt_head hm
        rw [hr'] at h2 ⊢
        rw [List.cons_append] at h2 ⊢
        rw [redactScan_cons_some h2]
        have hsh : rest.length ≤ n := by
          have := redactMatchAt_shrink hm
          simp at this hle
          omega
        rw [ih rest hsh]
        simp

theorem redactScan_idem (l : List Char) : redactScan (redactScan l) = redactScan l :=
  redactScan_idem_fuel l.length l (le_refl _)

theorem isPrefixOf_append_left : ∀ (p X A : List Char),
    p.isPrefixOf (X ++ A) = true → p.length ≤ X.length → p.isPrefixOf X = true := by
  intro p
  induction p with
  | nil => intro X A _ _; simp [List.isPrefixOf]
  | cons c ct ih =>
    intro X A hp hl
    rcases X with _ | ⟨x0, Xt⟩
    · simp at hl
    · simp only [List.cons_append, List.isPrefixOf, Bool.and_eq_true, beq_iff_eq] at hp ⊢
      simp only [List.length_cons] at hl
      exact ⟨hp.1, ih Xt A hp.2 (by omega)⟩

theorem redactKeywords_prefix_antisym :
    ∀ p ∈ redactKeywords, ∀ kw ∈ redactKeywords, p.isPrefixOf kw = true → p = kw := by
  decide

theorem redactKeywords_head_not_amp : ∀ kw ∈ redactKeywords, kw.head? ≠ some '&' := by
  decide

theorem find?_eq_some_of_unique {α : Type} (p : α → Bool) :
    ∀ (l : List α) (a : α), a ∈ l → p a = true →
      (∀ b ∈ l, b ≠ a → p b = false) → l.find? p = some a := by
  intro l
  induction l with
  | nil => intro a ha _ _; simp at ha
  | cons x t ih =>
    intro a ha hp hother
    by_cases hx : x = a
    · subst hx
      rw [List.find?_cons, hp]
    · have hpx : p x = false := hother x (List.mem_cons_self _ _) hx
      rw [List.find?_cons, hpx]
      have hat : a ∈ t := by
        rcases List.mem_cons.mp ha with h | h
        · exact absurd h.symm hx
        · exact h
      exact ih a hat hp fun b hb hne => hother b (List.mem_cons_of_mem _ hb) hne

theorem attempt_occurrence (k v b : List Char)
    (hk : k.map charLower ∈ redactKeywords)
    (hv : v ≠ []) (hvw : ∀ c ∈ v, isWordChar c = true)
    (hb : ∀ ch, b.head? = some ch → isWordChar ch = false) :
    redactAttempt (k ++ '=' :: (v ++ b))
      = some (k ++ '=' :: "REDACTED".toList, b) := by
  have hkl : (k.map charLower).length = k.length := List.length_map _ _
  have hfind : redactKeywords.find? (fun p => keywordPrefix p (k ++ '=' :: (v ++ b)))
      = some (k.map charLower) := by
    apply find?_eq_some_of_unique _ _ _ hk
    · unfold keywordPrefix
      rw [List.map_append, List.map_cons, charLower_eq_sep, List.isPrefixOf_iff_prefix]
      exact List.prefix_append _ _
    · intro p hm hne
      cases hx : keywordPrefix p (k ++ '=' :: (v ++ b))
      · rfl
      · exfalso
        unfold keywordPrefix at hx
        rw [List.map_append, List.map_cons, charLower_eq_sep] at hx
        have hle := isPrefixOf_sep_le p (k.map charLower) ((v ++ b).map charLower)
          (redactKeywords_no_sep p hm) hx
        have hpre : p.isPrefixOf (k.map charLower) = true :=
          isPrefixOf_append_left p (k.map charLower) ('=' :: (v ++ b).map charLower) hx hle
        exact hne (redactKeywords_prefix_antisym p hm (k.map charLower) hk hpre)
  unfold redactAttempt
  rw [hfind]
  dsimp only
  have hdrop : (k ++ '=' :: (v ++ b)).drop (k.map charLower).length = '=' :: (v ++ b) := by
    rw [hkl]
    exact List.drop_left _ _
  rw [hdrop]
  dsimp only
  rw [if_pos rfl]
  have htw : (v ++ b).takeWhile isWordChar = v := by
    rw [takeWhile_word_append _ _ hvw, takeWhile_headNonWord b hb, List.append_nil]
  have hdw : (v ++ b).dropWhile isWordChar = b := by
    rw [dropWhile_word_append _ _ hvw, dropWhile_headNonWord b hb]
  rw [htw, hdw]
  rw [if_neg (by
    rcases v with _ | ⟨v0, vt⟩
    · exact absurd rfl hv
    · simp)]
  have htake : (k ++ '=' :: (v ++ b)).take (k.map charLower).length = k := by
    rw [hkl]
    exact List.take_left _ _
  rw [htake]

theorem matchAt_occurrence (amp k v b : List Char)
    (hamp : amp = [] ∨ amp = ['&'])
    (hk : k.map charLower ∈ redactKeywords)
    (hv : v ≠ []) (hvw : ∀ c ∈ v, isWordChar c = true)
    (hb : ∀ ch, b.head? = some ch → isWordChar ch = false) :
    redactMatchAt (amp ++ (k ++ '=' :: (v ++ b)))
      = some (amp ++ (k ++ '=' :: "REDACTED".toList), b) := by
  have hatt := attempt_occurrence k v b hk hv hvw hb
  rcases hkc : k with _ | ⟨k0, kt⟩
  · rw [hkc] at hk
    exact absurd hk (by decide)
  · rw [hkc] at hatt hk
    have hk0 : k0 ≠ '&' := by
      intro he
      apply redactKeywords_head_not_amp _ hk
      rw [List.map_cons, he]
      rfl
    rcases hamp with h | h <;> subst h
    · simp only [List.nil_append]
      show redactMatchAt (k0 :: (kt ++ '=' :: (v ++ b))) = _
      unfold redactMatchAt
      dsimp only
      rw [if_neg hk0]
      rw [← List.cons_append]
      exact hatt
    · show redactMatchAt ('&' :: ((k0 :: kt) ++ '=' :: (v ++ b))) = _
      unfold redactMatchAt
      dsimp only
      rw [if_pos rfl]
      rw [hatt]
      rfl

theorem scan_with_occurrence : ∀ (a occ repl rest : List Char),
    (∀ i, i < a.length → redactMatchAt (a.drop i ++ occ) = none) →
    redactMatchAt occ = some (repl, rest) →
    redactScan (a ++ occ) = a ++ (repl ++ redactScan rest) := by
  intro a
  induction a with
  | nil =>
    intro occ repl rest _ hm
    rcases occ with _ | ⟨c, t⟩
    · unfold redactMatchAt at hm
      simp at hm
    · simp only [List.nil_append]
      exact redactScan_cons_some hm
  | cons c a' ih =>
    intro occ repl rest ha hm
    have h0 : redactMatchAt (c :: (a' ++ occ)) = none := by
      have := ha 0 (by simp)
      simpa using this
    rw [List.cons_append, redactScan_cons_none h0]
    rw [ih occ repl rest (fun i hi => by
      have := ha (i + 1) (by simp at hi ⊢; omega)
      simpa using this) hm]
    simp

/-- Claim C9 as amended: redactSearchParams is idempotent on every string
- redacting an already-redacted string changes nothing - and it performs
the universal replacement the specification describes: for every string
holding an occurrence of one of the three credential parameter names in
any casing, followed by an equals sign and a nonempty maximal word-run
value, and whose text before the occurrence starts no earlier match, the
result keeps the preceding text, the optional ampersand and the parameter
name in its original casing verbatim, replaces exactly the value with the
literal REDACTED, and continues the scan on the text after the value.
The repository's own eight redaction fixtures evaluate accordingly.  The
credential-value replacement pass of redactCredentials is not idempotent,
which is the recorded counterexample. -/
theorem claim_c9_redaction_idempotent :
    (∀ s : String, redactSearchParams (redactSearchParams s) = redactSearchParams s) ∧
    (∀ (a amp k v b : List Char),
      amp = [] ∨ amp = ['&'] →
      k.map charLower ∈ redactKeywords →
      v ≠ [] → (∀ c ∈ v, isWordChar c = true) →
      (∀ ch, b.head? = some ch → isWordChar ch = false) →
      (∀ i, i < a.length →
        redactMatchAt (a.drop i ++ (amp ++ (k ++ '=' :: (v ++ b)))) = none) →
      redactScan (a ++ (amp ++ (k ++ '=' :: (v ++ b))))
        = a ++ (amp ++ (k ++ '=' :: ("REDACTED".toList ++ redactScan b)))) ∧
    redactSearchParams "url?client_id=9d5&client_secret=fbd58"
      = "url?client_id=REDACTED&client_secret=REDACTED" ∧
    redactSearchParams "url?client_id=9d5&client_secret=fbd58&blah"
      = "url?client_id=REDACTED&client_secret=REDACTED&blah" ∧
    redactSearchParams "url?blah&client_id=9d5&client_secret=fbd58&blah"
      = "url?blah&client_id=REDACTED&client_secret=REDACTED&blah" ∧
    redactSearchParams "url?blah&client_id=9d5&client_secret=fbd58"
      = "url?blah&client_id=REDACTED&client_secret=REDACTED" ∧
    redactSearchParams "url?access_token=9d5" = "url?access_token=REDACTED" ∧
    redactSearchParams "url?access_token=9d5&blah" = "url?access_token=REDACTED&blah" ∧
    redactSearchParams "url?blah&access_token=9d5" = "url?blah&access_token=REDACTED" ∧
    redactSearchParams "url?blah&access_token=9d5&blah"
      = "url?blah&access_token=REDACTED&blah" := by
  refine ⟨?_, ?_, ?_, ?_, ?_, ?_, ?_, ?_, ?_, ?_⟩
  · intro s
    unfold redactSearchParams
    show String.mk (redactScan (redactScan s.toList)) = _
    rw [redactScan_idem]
  · intro a amp k v b hamp hk hv hvw hb ha
    have hm := matchAt_occurrence amp k v b hamp hk hv hvw hb
    rw [scan_with_occurrence a _ _ _ ha hm]
    simp [List.append_assoc]
  all_goals
    unfold redactSearchParams
    rw [redactScan_eq_go 100 _ (by decide)]
    decide

/-- Witness for claim C9 at a concrete input: in the string made of the
prefix url?blah, an ampersand, the mixed-case parameter name Access_Token,
an equals sign, the value 9D5 and the trailer &blah, the scan keeps the
prefix, the ampersand and the mixed-case name verbatim and replaces
exactly the value with REDACTED. -/
theorem claim_c9_redaction_idempotent_witness :
    redactScan ("url?blah".toList ++ (['&'] ++ ("Access_Token".toList
        ++ '=' :: ("9D5".toList ++ "&blah".toList))))
      = "url?blah".toList ++ (['&'] ++ ("Access_Token".toList
        ++ '=' :: ("REDACTED".toList ++ redactScan "&blah".toList))) :=
  claim_c9_redaction_idempotent.2.1 "url?blah".toList ['&'] "Access_Token".toList
    "9D5".toList "&blah".toList (Or.inr rfl) (by decide) (by decide) (by decide)
    (by decide) (by decide)

/-- Claim C9, counterexample to the original wording: redactCredentials is
not idempotent - with a client identifier that recurs inside the literal
REDACTED, a second application rewrites the replacement produced by the
first. -/
theorem claim_c9_counterexample :
    redactCredentials (redactCredentials "DACT" credsDACT) credsDACT
      ≠ redactCredentials "DACT" credsDACT := by
  have e1 : redactCredentials "DACT" credsDACT = "REDACTED" := by
    have hs1 : redactSearchParams "DACT" = "DACT" := by
      unfold redactSearchParams
      rw [redactScan_eq_go 100 _ (by decide)]
      decide
    simp only [redactCredentials]
    rw [hs1]
    rw [if_neg (by decide : ¬ (getAccessToken credsDACT ≠ ""))]
    rw [if_neg (by decide : ¬ (credsDACT.GITHUB_CLIENT_SECRET ≠ ""))]
    rw [if_pos (by decide : credsDACT.GITHUB_CLIENT_ID ≠ "")]
    rw [replaceAll_eq_go 100 _ _ _ (by decide)]
    decide
  have e2 : redactCredentials "REDACTED" credsDACT = "REREDACTEDED" := by
    have hs1 : redactSearchParams "REDACTED" = "REDACTED" := by
      unfold redactSearchParams
      rw [redactScan_eq_go 100 _ (by decide)]
      decide
    simp only [redactCredentials]
    rw [hs1]
    rw [if_neg (by decide : ¬ (getAccessToken credsDACT ≠ ""))]
    rw [if_neg (by decide : ¬ (credsDACT.GITHUB_CLIENT_SECRET ≠ ""))]
    rw [if_pos (by decide : credsDACT.GITHUB_CLIENT_ID ≠ "")]
    rw [replaceAll_eq_go 100 _ _ _ (by decide)]
    decide
  rw [e1, e2]
  decide
